import Mathlib

/-!
# paint.js: drag tracking, tool dispatch and the Line / Erase / Spray / Text tools

A shallow embedding of `src/paint.js`.

* A JavaScript number is embedded as the rational it denotes. Every arithmetic operation of
  the source is followed by `fl`, the rounding to the nearest double (ties to even, spacing
  `2^-1074` in the subnormal range); `Math.floor`, `Math.ceil`, `Math.max` and comparisons
  are exact, as they are on doubles. `Math.PI` is the exact value of the double `Math.PI`.
  A rounded value of magnitude `2^1024` or more stands for an infinity; signed zeros are not
  distinguished.
* The browser is embedded as an explicit `State`: the 2D context `cx`, the bounding rectangle
  of the canvas, the `mousemove` / `mouseup` listener lists of `window`, the active
  intervals, and the cells that hold the closure variables `pos` and `currentPos`.
* Function values are defunctionalised: `Closure` lists the closures the tools create,
  `Listener.dragEnd` is the function `end` that one call of `trackDrag` creates.
* `State.calls` is a ghost log of the calls the host and `trackDrag` make; it is only ever
  appended to and never read by the program.
* `Math.random()` is embedded as a list of draws handed to a timer tick; a tick that uses up
  its list without finishing its loops has not terminated within these draws
  (`Failure.outOfDraws`). The loop counter of a tick is a double as well: `i++` leaves
  `2^53` unchanged, so a loop bound above `2^53` is never reached.
-/

namespace Paint

/-! ## Data model -/

/-- The fields of a mouse event that the program reads. -/
structure MouseEvent where
  clientX : ℚ
  clientY : ℚ
  which : ℕ
  deriving DecidableEq

/-- The fields of `element.getBoundingClientRect()` that the program reads. -/
structure Rect where
  left : ℚ
  top : ℚ
  deriving DecidableEq

/-- The object `{x: ..., y: ...}` returned by `relativePos`. -/
structure Point where
  x : ℤ
  y : ℤ
  deriving DecidableEq

/-- The object `{x: ..., y: ...}` returned by `randomPointInRadius`. -/
structure Offset where
  x : ℚ
  y : ℚ
  deriving DecidableEq

/-- The drawing calls made on the 2D context, in the order they are issued. -/
inductive DrawCall
  | strokeRect (x y w h : ℚ)
  | beginPath
  | moveTo (x y : ℚ)
  | lineTo (x y : ℚ)
  | stroke
  | fillText (text : String) (x y : ℚ)
  | fillRect (x y w h : ℚ)
  deriving DecidableEq

/-- A value assigned to `cx.font`: a string literal, or the concatenation `n + s` of a
number and a string (the string `ToString(n)` followed by `s`). -/
inductive FontValue
  | text (s : String)
  | numberThen (n : ℚ) (s : String)
  deriving DecidableEq

/-- The 2D context `cx`: the style fields the program assigns, and the calls drawn so far.
`font` is the value last assigned to `cx.font`. -/
structure Context where
  lineWidth : ℚ
  strokeStyle : String
  lineCap : String
  globalCompositeOperation : String
  font : FontValue
  drawn : List DrawCall
  deriving DecidableEq

/-- The closures created by the tools, and functions supplied by another caller of
`trackDrag`. The numbers are the identities of the closure variables they capture. -/
inductive Closure
  /-- The move callback of `tools.Line`; `pos` is the cell of its variable `pos`. -/
  | lineMove (pos : ℕ)
  /-- The end hook `function() { cx.globalCompositeOperation = 'source-over'; }`. -/
  | eraseEnd
  /-- The move callback of `tools.Spray`; `cur` is the cell of `currentPos`. -/
  | sprayMove (cur : ℕ)
  /-- The end hook of `tools.Spray`; `spray` is the interval identifier. -/
  | sprayEnd (spray : ℕ)
  /-- A function supplied by some other caller; it touches nothing of the modelled state. -/
  | caller (k : ℕ)
  deriving DecidableEq

/-- A function registered on `window`. -/
inductive Listener
  | fn (f : Closure)
  /-- The function `end` created by call number `id` of `trackDrag(onMove, onEnd)`. -/
  | dragEnd (id : ℕ) (onMove : Closure) (onEnd : Option Closure)
  deriving DecidableEq

/-- The interval callback of `tools.Spray` with the variables it captures. -/
structure SprayTick where
  cur : ℕ
  radius : ℚ
  dotsPerTick : ℤ
  deriving DecidableEq

inductive EventType
  | mousemove
  | mouseup
  deriving DecidableEq

/-- The tools of the registry `tools`. -/
inductive Tool
  | Line
  | Erase
  | Text
  | Spray
  deriving DecidableEq

/-- Ghost log entries. -/
inductive Call
  /-- The host calls listener `l`, registered for `ty`, with `ev`. -/
  | listener (ty : EventType) (l : Listener) (ev : MouseEvent)
  /-- The call `onEnd(event)` inside `end`. -/
  | onEnd (f : Closure) (ev : MouseEvent)
  /-- The call `tools[select.value](event, cx)` of the dispatcher. -/
  | tool (t : Tool) (ev : MouseEvent)
  /-- The call `event.preventDefault()` of the dispatcher. -/
  | preventDefault (ev : MouseEvent)
  deriving DecidableEq

structure State where
  cx : Context
  /-- The current value of `cx.canvas.getBoundingClientRect()`. -/
  rect : Rect
  /-- The `mousemove` listeners of `window`, in registration order. -/
  onMousemove : List Listener
  /-- The `mouseup` listeners of `window`, in registration order. -/
  onMouseup : List Listener
  /-- The active intervals. -/
  timers : List (ℕ × SprayTick)
  /-- The closure variables `pos` / `currentPos`, newest binding first. -/
  cells : List (ℕ × Point)
  /-- The next fresh identity (closure variable, `end` function, interval). -/
  nextId : ℕ
  calls : List Call
  deriving DecidableEq

inductive Failure
  /-- `tools[select.value]` is `undefined` and is called. -/
  | typeError
  /-- The draws handed to a tick ended before its loops did. -/
  | outOfDraws
  deriving DecidableEq

/-- What the environment does to the page. -/
inductive Input
  /-- A `mousedown` on the canvas; `selected` is `select.value` of the tool control and
  `answer` what `prompt` returns if it is called (`none` for `null`). -/
  | mousedown (selected : String) (answer : Option String) (ev : MouseEvent)
  | mousemove (ev : MouseEvent)
  | mouseup (ev : MouseEvent)
  /-- The host fires interval `id`, if it is still active; `draws` are the values the
  following calls of `Math.random()` return. -/
  | tick (id : ℕ) (draws : List ℚ)
  /-- Scrolling or layout moves the canvas. -/
  | layout (rect : Rect)
  /-- The user picks `size` in the brush size control. -/
  | brushSize (size : ℚ)
  deriving DecidableEq

/-! ## The program -/

/-- The double `Math.PI`, exactly. -/
def Math.PI : ℚ := 884279719003555 / 281474976710656

/-- The exponent of the spacing of the doubles around `q`: 52 below the binary exponent of
`q`, and -1074 in the subnormal range. -/
def ulpExp (q : ℚ) : ℤ := max (Int.log 2 |q| - 52) (-1074)

/-- Round to the nearest integer, ties to the even one. -/
def roundHalfEven (x : ℚ) : ℤ :=
  if x - ⌊x⌋ < 1 / 2 then ⌊x⌋
  else if 1 / 2 < x - ⌊x⌋ then ⌊x⌋ + 1
  else if ⌊x⌋ % 2 = 0 then ⌊x⌋ else ⌊x⌋ + 1

/-- Host: the result of an arithmetic operation whose exact value is `q`, rounded to the
nearest double, ties to even. -/
def fl (q : ℚ) : ℚ := roundHalfEven (q / 2 ^ ulpExp q) * 2 ^ ulpExp q

/-- Source: `relativePos(event, element)`; `rect` is `element.getBoundingClientRect()`. -/
def relativePos (event : MouseEvent) (rect : Rect) : Point :=
  { x := ⌊fl (event.clientX - rect.left)⌋, y := ⌊fl (event.clientY - rect.top)⌋ }

def State.listeners (s : State) : EventType → List Listener
  | .mousemove => s.onMousemove
  | .mouseup => s.onMouseup

def State.setListeners (s : State) (ty : EventType) (ls : List Listener) : State :=
  match ty with
  | .mousemove => { s with onMousemove := ls }
  | .mouseup => { s with onMouseup := ls }

/-- Host: `addEventListener(type, f)`; a function already registered is not added again. -/
def addEventListener (ty : EventType) (l : Listener) (s : State) : State :=
  if l ∈ s.listeners ty then s else s.setListeners ty (s.listeners ty ++ [l])

/-- Host: `removeEventListener(type, f)`. -/
def removeEventListener (ty : EventType) (l : Listener) (s : State) : State :=
  s.setListeners ty ((s.listeners ty).erase l)

/-- Host: `setInterval(f, 25)` returns a fresh identifier. -/
def setInterval (f : SprayTick) (s : State) : ℕ × State :=
  (s.nextId, { s with timers := s.timers ++ [(s.nextId, f)], nextId := s.nextId + 1 })

/-- Host: `clearInterval(id)`. -/
def clearInterval (id : ℕ) (s : State) : State :=
  { s with timers := s.timers.filter (fun t => t.1 ≠ id) }

/-- A new closure variable holding `p`; returns its identity. -/
def State.newCell (s : State) (p : Point) : ℕ × State :=
  (s.nextId, { s with cells := (s.nextId, p) :: s.cells, nextId := s.nextId + 1 })

def State.readCell (s : State) (c : ℕ) : Point :=
  (s.cells.lookup c).getD ⟨0, 0⟩

def State.writeCell (s : State) (c : ℕ) (p : Point) : State :=
  { s with cells := (c, p) :: s.cells }

/-- One call on the context is appended to what has been drawn. -/
def State.draw (s : State) (d : DrawCall) : State :=
  { s with cx := { s.cx with drawn := s.cx.drawn ++ [d] } }

def State.log (s : State) (c : Call) : State :=
  { s with calls := s.calls ++ [c] }

/-- The bodies of the closures. -/
def Closure.call : Closure → MouseEvent → State → State
  | .lineMove pos, event, s =>
      let s := s.draw .beginPath
      let s := s.draw (.moveTo (s.readCell pos).x (s.readCell pos).y)
      let s := s.writeCell pos (relativePos event s.rect)
      let s := s.draw (.lineTo (s.readCell pos).x (s.readCell pos).y)
      s.draw .stroke
  | .eraseEnd, _, s =>
      { s with cx := { s.cx with globalCompositeOperation := "source-over" } }
  | .sprayMove cur, event, s => s.writeCell cur (relativePos event s.rect)
  | .sprayEnd spray, _, s => clearInterval spray s
  | .caller _, _, s => s

/-- The bodies of the listeners; `dragEnd` is the function `end` of `trackDrag`. -/
def Listener.call : Listener → MouseEvent → State → State
  | .fn f, event, s => f.call event s
  | .dragEnd id onMove onEnd, event, s =>
      let s := removeEventListener .mousemove (.fn onMove) s
      let s := removeEventListener .mouseup (.dragEnd id onMove onEnd) s
      match onEnd with
      | some f => f.call event (s.log (.onEnd f event))
      | none => s

/-- Source: `trackDrag(onMove, onEnd)`. -/
def trackDrag (onMove : Closure) (onEnd : Option Closure) (s : State) : State :=
  let endFn := Listener.dragEnd s.nextId onMove onEnd
  let s := { s with nextId := s.nextId + 1 }
  let s := addEventListener .mousemove (.fn onMove) s
  addEventListener .mouseup endFn s

/-- Host: the listeners registered when the dispatch starts are called in order, except
those removed in the meantime. -/
def dispatchTo (ty : EventType) (event : MouseEvent) : List Listener → State → State
  | [], s => s
  | l :: ls, s =>
      if l ∈ s.listeners ty then
        dispatchTo ty event ls (l.call event (s.log (.listener ty l event)))
      else dispatchTo ty event ls s

/-- Host: an event of type `ty` reaches `window`. -/
def dispatch (ty : EventType) (event : MouseEvent) (s : State) : State :=
  dispatchTo ty event (s.listeners ty) s

/-- Source: `tools.Line(event, cx, onEnd)`. -/
def tools.Line (event : MouseEvent) (onEnd : Option Closure) (s : State) : State :=
  let s := { s with cx := { s.cx with lineCap := "round" } }
  let (pos, s) := s.newCell (relativePos event s.rect)
  trackDrag (.lineMove pos) onEnd s

/-- Source: `tools.Erase(event, cx)`. -/
def tools.Erase (event : MouseEvent) (s : State) : State :=
  let s := { s with cx := { s.cx with globalCompositeOperation := "destination-out" } }
  tools.Line event (some .eraseEnd) s

/-- Source: `tools.Text(event, cx)`; `answer` is what `prompt` returns. -/
def tools.Text (answer : Option String) (event : MouseEvent) (s : State) : State :=
  match answer with
  | none => s
  | some text =>
      if text ≠ "" then
        let pos := relativePos event s.rect
        let s := { s with cx := { s.cx with
          font := .numberThen (max 7 s.cx.lineWidth) " px sans - serif " } }
        s.draw (.fillText text pos.x pos.y)
      else s

/-- Source: `randomPointInRadius(radius)`; returns the offset and the draws left over, or
`none` when the draws end before a candidate is accepted. -/
def randomPointInRadius (radius : ℚ) : List ℚ → Option (Offset × List ℚ)
  | u :: v :: rest =>
      let x := fl (fl (u * 2) - 1)
      let y := fl (fl (v * 2) - 1)
      if fl (fl (x * x) + fl (y * y)) ≤ 1 then
        some ({ x := fl (x * radius), y := fl (y * radius) }, rest)
      else randomPointInRadius radius rest
  | _ => none

/-- The loop `for (var i = 0; i < dotsPerTick; i++)` of the interval callback, with `n`
iterations to go. -/
def sprayLoop (f : SprayTick) : ℕ → List ℚ → State → Except Failure State
  | 0, _, s => .ok s
  | n + 1, draws, s =>
      match randomPointInRadius f.radius draws with
      | none => .error .outOfDraws
      | some (offset, rest) =>
          sprayLoop f n rest
            (s.draw (.fillRect (fl ((s.readCell f.cur).x + offset.x))
              (fl ((s.readCell f.cur).y + offset.y)) 1 1))

/-- The interval callback of `tools.Spray`. The counter `i` is a double and `i++` leaves
`2 ^ 53` unchanged, so with a bound above `2 ^ 53` the loop does not end and uses up any
list of draws. -/
def SprayTick.call (f : SprayTick) (draws : List ℚ) (s : State) : Except Failure State :=
  if f.dotsPerTick ≤ 2 ^ 53 then sprayLoop f f.dotsPerTick.toNat draws s
  else .error .outOfDraws

/-- Source: `tools.Spray(event, cx)`. When a product overflows, `dotsPerTick` is `Infinity`
in the code and above `2 ^ 53` here: either way the loop of a tick does not end. -/
def tools.Spray (event : MouseEvent) (s : State) : State :=
  let radius := fl (s.cx.lineWidth / 2)
  let area := fl (fl (radius * radius) * Math.PI)
  let dotsPerTick : ℤ := ⌈fl (area / 30)⌉
  let (currentPos, s) := s.newCell (relativePos event s.rect)
  let (spray, s) :=
    setInterval { cur := currentPos, radius := radius, dotsPerTick := dotsPerTick } s
  trackDrag (.sprayMove currentPos) (some (.sprayEnd spray)) s

/-- The registry `tools`: an object without prototype holding the four tools. -/
def tools (name : String) : Option Tool :=
  if name = "Line" then some .Line
  else if name = "Erase" then some .Erase
  else if name = "Text" then some .Text
  else if name = "Spray" then some .Spray
  else none

/-- The call `tools[name](event, cx)`, once the name is resolved. -/
def Tool.call (t : Tool) (answer : Option String) (event : MouseEvent) (s : State) : State :=
  match t with
  | .Line => tools.Line event none s
  | .Erase => tools.Erase event s
  | .Text => tools.Text answer event s
  | .Spray => tools.Spray event s

/-- Source: the `mousedown` listener installed by `controls.tool`. -/
def controls.tool (selected : String) (answer : Option String) (event : MouseEvent)
    (s : State) : Except Failure State :=
  if event.which = 1 then
    match tools selected with
    | none => .error .typeError
    | some t =>
        let s := t.call answer event (s.log (.tool t event))
        .ok (s.log (.preventDefault event))
  else .ok s

/-- Source: the `change` listener installed by `controls.brushSize`. -/
def controls.brushSize (size : ℚ) (s : State) : State :=
  { s with cx := { s.cx with lineWidth := size } }

/-- The brush sizes offered by `controls.brushSize`. -/
def sizes : List ℚ := [1, 2, 3, 5, 8, 12, 25, 35, 50, 75, 100]

/-- Source: `createPaint(parent)`, as far as the context is concerned; `rect` is where the
canvas is laid out. -/
def createPaint (rect : Rect) : State :=
  { cx := { lineWidth := 4, strokeStyle := "#FF0000", lineCap := "butt",
            globalCompositeOperation := "source-over", font := .text "10px sans-serif",
            drawn := [.strokeRect 0 0 500 300] },
    rect := rect, onMousemove := [], onMouseup := [], timers := [], cells := [],
    nextId := 0, calls := [] }

/-- One reaction of the page. -/
def step (s : State) : Input → Except Failure State
  | .mousedown selected answer ev => controls.tool selected answer ev s
  | .mousemove ev => .ok (dispatch .mousemove ev s)
  | .mouseup ev => .ok (dispatch .mouseup ev s)
  | .tick id draws =>
      match s.timers.lookup id with
      | some f => f.call draws s
      | none => .ok s
  | .layout rect => .ok { s with rect := rect }
  | .brushSize size => .ok (controls.brushSize size s)

/-- The page reacts to the inputs in order; the first failure ends the run. -/
def run (s : State) : List Input → Except Failure State
  | [] => .ok s
  | i :: is =>
      match step s i with
      | .ok s' => run s' is
      | .error e => .error e

/-- No drag session is in progress and no interval is active. -/
def State.Idle (s : State) : Prop :=
  s.onMousemove = [] ∧ s.onMouseup = [] ∧ s.timers = []

/-! ## Definitions used to state the properties -/

/-- A drag session of `trackDrag(onMove, onEnd)` with identity `id` is the only one in
progress. -/
def Dragging (onMove : Closure) (onEnd : Option Closure) (id : ℕ) (s : State) : Prop :=
  s.onMousemove = [.fn onMove] ∧ s.onMouseup = [.dragEnd id onMove onEnd]

/-- The input is a `mousemove` or a `mouseup`. -/
def Input.isPointerEvent : Input → Prop
  | .mousemove _ => True
  | .mouseup _ => True
  | _ => False

/-- The inputs of a stream of moves, each delivered with the canvas laid out at the given
rectangle. -/
def deliveries (moves : List (Rect × MouseEvent)) : List Input :=
  moves.flatMap (fun m => [.layout m.1, .mousemove m.2])

/-- The calls that stroke the segment from `a` to `b` as a path of its own. -/
def segment (a b : Point) : List DrawCall :=
  [.beginPath, .moveTo a.x a.y, .lineTo b.x b.y, .stroke]

/-- The segments between consecutive points of `ps`, in order. -/
def strokes (ps : List Point) : List DrawCall :=
  (ps.zip ps.tail).flatMap (fun ab => segment ab.1 ab.2)

/-- The candidate points `(u * 2 - 1, v * 2 - 1)` of a stream of draws, as the doubles the
code computes, in draw order. -/
def candidates : List ℚ → List (ℚ × ℚ)
  | u :: v :: rest => (fl (fl (u * 2) - 1), fl (fl (v * 2) - 1)) :: candidates rest
  | _ => []

/-- The test `x * x + y * y <= 1` as the code evaluates it, in doubles. -/
def passesTest (c : ℚ × ℚ) : Bool := decide (fl (fl (c.1 * c.1) + fl (c.2 * c.2)) ≤ 1)

/-- The candidates that the rejection loop accepts, in draw order. -/
def accepted (draws : List ℚ) : List (ℚ × ℚ) := (candidates draws).filter passesTest

/-- The offset that `randomPointInRadius(radius)` returns for the accepted candidate `c`. -/
def scaled (radius : ℚ) (c : ℚ × ℚ) : Offset :=
  { x := fl (c.1 * radius), y := fl (c.2 * radius) }

/-- The call that plots one dot around `p` for the accepted candidate `c`. -/
def dot (radius : ℚ) (p : Point) (c : ℚ × ℚ) : DrawCall :=
  .fillRect (fl (p.x + (scaled radius c).x)) (fl (p.y + (scaled radius c).y)) 1 1

/-- Several calls on the context, appended to what has been drawn. -/
def State.drawAll (s : State) (ds : List DrawCall) : State :=
  { s with cx := { s.cx with drawn := s.cx.drawn ++ ds } }

/-- A `mousedown`. -/
def Input.isPress : Input → Prop
  | .mousedown _ _ _ => True
  | _ => False

/-- A `mouseup`. -/
def Input.isRelease : Input → Prop
  | .mouseup _ => True
  | _ => False

/-- The value of `Math.ceil(radius * radius * Math.PI / 30)` with `radius = w / 2`, as the
code computes it in doubles. -/
def dotsFor (w : ℚ) : ℤ := ⌈fl (fl (fl (fl (w / 2) * fl (w / 2)) * Math.PI) / 30)⌉

/-- The interval callback that `tools.Spray` creates in state `s`. -/
def sprayTickOf (s : State) : SprayTick :=
  { cur := s.nextId, radius := fl (s.cx.lineWidth / 2),
    dotsPerTick := dotsFor s.cx.lineWidth }

/-- A Spray gesture with interval `t` running `f` is the only session in progress. -/
def Spraying (f : SprayTick) (t id : ℕ) (s : State) : Prop :=
  Dragging (.sprayMove f.cur) (some (.sprayEnd t)) id s ∧ s.timers = [(t, f)]

/-- The dots that one tick of `f` plots around `p`, given its draws. -/
def tickDots (f : SprayTick) (p : Point) (draws : List ℚ) : List DrawCall :=
  ((accepted draws).take f.dotsPerTick.toNat).map (dot f.radius p)

/-- The tick of `f` ends when it is given `draws`: its loop bound can be reached and the
draws hold enough accepted candidates. -/
def Finishes (f : SprayTick) (draws : List ℚ) : Prop :=
  f.dotsPerTick ≤ 2 ^ 53 ∧ f.dotsPerTick.toNat ≤ (accepted draws).length

/-- A state of the page with stroke width `w`, otherwise as `createPaint` leaves it. -/
def pageWithWidth (rect : Rect) (w : ℚ) : State :=
  { createPaint rect with cx := { (createPaint rect).cx with lineWidth := w } }

/-! ## Properties -/

theorem Closure.call_onMousemove (f : Closure) (ev : MouseEvent) (s : State) :
    (f.call ev s).onMousemove = s.onMousemove := by
  cases f <;> rfl

theorem Closure.call_onMouseup (f : Closure) (ev : MouseEvent) (s : State) :
    (f.call ev s).onMouseup = s.onMouseup := by
  cases f <;> rfl

theorem Closure.call_calls (f : Closure) (ev : MouseEvent) (s : State) :
    (f.call ev s).calls = s.calls := by
  cases f <;> rfl

/-- With no listener registered for `ty`, an event of that type changes nothing. -/
theorem dispatch_nil (ty : EventType) (ev : MouseEvent) (s : State)
    (h : s.listeners ty = []) : dispatch ty ev s = s := by
  simp [dispatch, h, dispatchTo]

theorem trackDrag_dragging (onMove : Closure) (onEnd : Option Closure) (s : State)
    (h₁ : s.onMousemove = []) (h₂ : s.onMouseup = []) :
    Dragging onMove onEnd s.nextId (trackDrag onMove onEnd s) := by
  simp [Dragging, trackDrag, addEventListener, State.listeners, State.setListeners, h₁, h₂]

theorem dispatch_mousemove_dragging {onMove : Closure} {onEnd : Option Closure} {id : ℕ}
    {s : State} (h : Dragging onMove onEnd id s) (ev : MouseEvent) :
    dispatch .mousemove ev s =
      onMove.call ev (s.log (.listener .mousemove (.fn onMove) ev)) := by
  simp [dispatch, State.listeners, h.1, dispatchTo, State.log, Listener.call]

theorem dispatch_mouseup_dragging {onMove : Closure} {onEnd : Option Closure} {id : ℕ}
    {s : State} (h : Dragging onMove onEnd id s) (ev : MouseEvent) :
    dispatch .mouseup ev s =
      (match onEnd with
        | some f => f.call ev
            { s with
              onMousemove := []
              onMouseup := []
              calls := s.calls ++
                [.listener .mouseup (.dragEnd id onMove onEnd) ev, .onEnd f ev] }
        | none =>
            { s with
              onMousemove := []
              onMouseup := []
              calls := s.calls ++ [.listener .mouseup (.dragEnd id onMove onEnd) ev] })
      := by
  cases onEnd <;>
  simp [dispatch, State.listeners, h.1, h.2, dispatchTo, State.log, Listener.call,
    removeEventListener, State.setListeners]

theorem run_append {s s' : State} {as : List Input} (h : run s as = .ok s')
    (bs : List Input) : run s (as ++ bs) = run s' bs := by
  induction as generalizing s with
  | nil => simp [run] at h; simp [h]
  | cons a as ih =>
      simp only [run, List.cons_append] at h ⊢
      cases hstep : step s a with
      | error e => simp [hstep] at h
      | ok s₁ => simp only [hstep] at h ⊢; exact ih h

theorem run_append_ok {s : State} {as bs : List Input} {s'' : State}
    (h : run s (as ++ bs) = .ok s'') : ∃ s', run s as = .ok s' ∧ run s' bs = .ok s'' := by
  induction as generalizing s with
  | nil => exact ⟨s, rfl, h⟩
  | cons a as ih =>
      simp only [run, List.cons_append] at h ⊢
      cases hstep : step s a with
      | error e => simp [hstep] at h
      | ok s₁ => simp only [hstep] at h ⊢; exact ih h

/-- With no listener on `window`, `mousemove` and `mouseup` events change nothing. -/
theorem run_pointer_of_unsubscribed (later : List Input) (s : State)
    (h₁ : s.onMousemove = []) (h₂ : s.onMouseup = [])
    (hl : ∀ i ∈ later, i.isPointerEvent) : run s later = .ok s := by
  induction later with
  | nil => rfl
  | cons i is ih =>
      have hi := hl i (List.mem_cons_self _ _)
      have his : ∀ j ∈ is, j.isPointerEvent := fun j hj => hl j (List.mem_cons_of_mem _ hj)
      cases i with
      | mousemove ev =>
          simp only [run, step]
          rw [dispatch_nil .mousemove ev s h₁]
          exact ih his
      | mouseup ev =>
          simp only [run, step]
          rw [dispatch_nil .mouseup ev s h₂]
          exact ih his
      | mousedown _ _ _ => exact absurd hi (by simp [Input.isPointerEvent])
      | tick _ _ => exact absurd hi (by simp [Input.isPointerEvent])
      | layout _ => exact absurd hi (by simp [Input.isPointerEvent])
      | brushSize _ => exact absurd hi (by simp [Input.isPointerEvent])

theorem dragging_mousemove {onMove : Closure} {onEnd : Option Closure} {id : ℕ}
    {s : State} (h : Dragging onMove onEnd id s) (ev : MouseEvent) :
    Dragging onMove onEnd id (dispatch .mousemove ev s) := by
  rw [dispatch_mousemove_dragging h]
  exact ⟨by rw [Closure.call_onMousemove]; exact h.1, by rw [Closure.call_onMouseup]; exact h.2⟩

theorem calls_mousemove_dragging {onMove : Closure} {onEnd : Option Closure} {id : ℕ}
    {s : State} (h : Dragging onMove onEnd id s) (ev : MouseEvent) :
    (dispatch .mousemove ev s).calls =
      s.calls ++ [.listener .mousemove (.fn onMove) ev] := by
  rw [dispatch_mousemove_dragging h, Closure.call_calls]; rfl

/-- During a session every `mousemove` calls `onMove`, once, and nothing else. -/
theorem run_moves_dragging {onMove : Closure} {onEnd : Option Closure} {id : ℕ}
    (moves : List MouseEvent) (s : State) (h : Dragging onMove onEnd id s) :
    ∃ s', run s (moves.map .mousemove) = .ok s' ∧ Dragging onMove onEnd id s' ∧
      s'.calls = s.calls ++ moves.map (fun e => Call.listener .mousemove (.fn onMove) e) := by
  induction moves generalizing s with
  | nil => exact ⟨s, rfl, h, by simp⟩
  | cons e es ih =>
      obtain ⟨s', hrun, hd, hc⟩ := ih (dispatch .mousemove e s) (dragging_mousemove h e)
      refine ⟨s', ?_, hd, ?_⟩
      · simpa [run, step] using hrun
      · rw [hc, calls_mousemove_dragging h]; simp

/-- The release ends the session: both listeners are gone and `onEnd` has been called. -/
theorem mouseup_dragging {onMove : Closure} {onEnd : Option Closure} {id : ℕ}
    {s : State} (h : Dragging onMove onEnd id s) (up : MouseEvent) :
    (dispatch .mouseup up s).onMousemove = [] ∧ (dispatch .mouseup up s).onMouseup = [] ∧
      (dispatch .mouseup up s).calls =
        s.calls ++ [.listener .mouseup (.dragEnd id onMove onEnd) up] ++
          (onEnd.map (fun f => Call.onEnd f up)).toList := by
  rw [dispatch_mouseup_dragging h]
  cases onEnd with
  | none => simp
  | some f => simp [Closure.call_onMousemove, Closure.call_onMouseup, Closure.call_calls]

/-- C1: after `trackDrag(onMove, onEnd)` with no other session in progress, a stream of
`mousemove` events followed by one `mouseup` calls `onMove` once per `mousemove`, in delivery
order, then the terminator, which calls `onEnd` (when supplied) once, after the last call of
`onMove`; afterwards no listener is subscribed, and later `mousemove` and `mouseup` events
change nothing: they call neither `onMove` nor `onEnd`. -/
theorem trackDrag_session (onMove : Closure) (onEnd : Option Closure) (s : State)
    (moves : List MouseEvent) (up : MouseEvent)
    (h₁ : s.onMousemove = []) (h₂ : s.onMouseup = []) :
    ∃ s', run (trackDrag onMove onEnd s) (moves.map .mousemove ++ [.mouseup up]) = .ok s' ∧
      s'.calls = s.calls ++ moves.map (fun e => Call.listener .mousemove (.fn onMove) e) ++
        [.listener .mouseup (.dragEnd s.nextId onMove onEnd) up] ++
        (onEnd.map (fun f => Call.onEnd f up)).toList ∧
      s'.onMousemove = [] ∧ s'.onMouseup = [] ∧
      ∀ later : List Input, (∀ i ∈ later, i.isPointerEvent) → run s' later = .ok s' := by
  have h0 := trackDrag_dragging onMove onEnd s h₁ h₂
  have hc0 : (trackDrag onMove onEnd s).calls = s.calls := by
    simp [trackDrag, addEventListener, State.listeners, State.setListeners, h₁, h₂]
  obtain ⟨s₁, hrun, hd, hc⟩ := run_moves_dragging moves _ h0
  obtain ⟨hm, hu, hcalls⟩ := mouseup_dragging hd up
  refine ⟨dispatch .mouseup up s₁, ?_, ?_, hm, hu, ?_⟩
  · rw [run_append hrun]; simp [run, step]
  · rw [hcalls, hc, hc0]
  · intro later hl
    exact run_pointer_of_unsubscribed later _ hm hu hl

theorem trackDrag_session_witness :
    ((createPaint ⟨0, 0⟩).onMousemove = [] ∧ (createPaint ⟨0, 0⟩).onMouseup = []) ∧
    ∃ s', run (trackDrag (.caller 0) (some (.caller 1)) (createPaint ⟨0, 0⟩))
        ([⟨1, 1, 1⟩, ⟨2, 3, 1⟩].map .mousemove ++ [.mouseup ⟨2, 3, 1⟩]) = .ok s' ∧
      s'.calls = (createPaint ⟨0, 0⟩).calls ++
        [⟨1, 1, 1⟩, ⟨2, 3, 1⟩].map (fun e => Call.listener .mousemove (.fn (.caller 0)) e) ++
        [.listener .mouseup
          (.dragEnd (createPaint ⟨0, 0⟩).nextId (.caller 0) (some (.caller 1))) ⟨2, 3, 1⟩] ++
        ((some (Closure.caller 1)).map (fun f => Call.onEnd f ⟨2, 3, 1⟩)).toList ∧
      s'.onMousemove = [] ∧ s'.onMouseup = [] ∧
      ∀ later : List Input, (∀ i ∈ later, i.isPointerEvent) → run s' later = .ok s' :=
  ⟨⟨rfl, rfl⟩, trackDrag_session (.caller 0) (some (.caller 1)) (createPaint ⟨0, 0⟩)
    [⟨1, 1, 1⟩, ⟨2, 3, 1⟩] ⟨2, 3, 1⟩ rfl rfl⟩

theorem strokes_cons_cons (p q : Point) (ps : List Point) :
    strokes (p :: q :: ps) = segment p q ++ strokes (q :: ps) := by
  simp [strokes]

theorem Closure.call_drawn (f : Closure) (ev : MouseEvent) (s : State)
    (h : ∀ c, f ≠ .lineMove c) : (f.call ev s).cx.drawn = s.cx.drawn := by
  cases f with
  | lineMove c => exact absurd rfl (h c)
  | _ => rfl

theorem Closure.call_eraseEnd_composite (ev : MouseEvent) (s : State) :
    (Closure.eraseEnd.call ev s).cx.globalCompositeOperation = "source-over" := rfl

theorem lineMove_drawn (c : ℕ) (ev : MouseEvent) (s : State) :
    ((Closure.lineMove c).call ev s).cx.drawn =
      s.cx.drawn ++ segment (s.readCell c) (relativePos ev s.rect) := by
  simp [Closure.call, State.draw, State.writeCell, State.readCell, segment, List.lookup]

theorem lineMove_readCell (c : ℕ) (ev : MouseEvent) (s : State) :
    ((Closure.lineMove c).call ev s).readCell c = relativePos ev s.rect := by
  simp [Closure.call, State.draw, State.writeCell, State.readCell, List.lookup]

theorem lineMove_composite (c : ℕ) (ev : MouseEvent) (s : State) :
    ((Closure.lineMove c).call ev s).cx.globalCompositeOperation =
      s.cx.globalCompositeOperation := rfl

/-- During a Line session the moves stroke the segments between consecutive positions. -/
theorem run_deliveries_line {c : ℕ} {onEnd : Option Closure} {id : ℕ}
    (moves : List (Rect × MouseEvent)) (s : State) (h : Dragging (.lineMove c) onEnd id s) :
    ∃ s', run s (deliveries moves) = .ok s' ∧ Dragging (.lineMove c) onEnd id s' ∧
      s'.cx.drawn = s.cx.drawn ++
        strokes (s.readCell c :: moves.map (fun m => relativePos m.2 m.1)) := by
  induction moves generalizing s with
  | nil => exact ⟨s, rfl, h, by simp [strokes]⟩
  | cons m ms ih =>
      have h' : Dragging (.lineMove c) onEnd id { s with rect := m.1 } := h
      obtain ⟨s', hrun, hd, hdr⟩ := ih (dispatch .mousemove m.2 { s with rect := m.1 })
        (dragging_mousemove h' m.2)
      refine ⟨s', ?_, hd, ?_⟩
      · simpa [deliveries, run, step] using hrun
      · rw [hdr, dispatch_mousemove_dragging h', lineMove_drawn, lineMove_readCell]
        simp [strokes_cons_cons, State.log, State.readCell]

/-- C3: a Line gesture with press `e0` and moves `e1..en`, each position computed from the
rectangle of the canvas when its event is delivered, strokes exactly the segments
`(p0,p1), ..., (p(n-1),pn)` in this order, each as its own
`beginPath` / `moveTo` / `lineTo` / `stroke`; with no move it draws nothing. -/
theorem line_gesture_segments (e0 : MouseEvent) (onEnd : Option Closure) (s : State)
    (moves : List (Rect × MouseEvent)) (up : MouseEvent)
    (h₁ : s.onMousemove = []) (h₂ : s.onMouseup = [])
    (hend : ∀ c, onEnd ≠ some (.lineMove c)) :
    ∃ s', run (tools.Line e0 onEnd s) (deliveries moves ++ [.mouseup up]) = .ok s' ∧
      s'.cx.drawn = s.cx.drawn ++
        strokes (relativePos e0 s.rect :: moves.map (fun m => relativePos m.2 m.1)) ∧
      (moves = [] → s'.cx.drawn = s.cx.drawn) := by
  have h0 : Dragging (.lineMove s.nextId) onEnd (s.nextId + 1) (tools.Line e0 onEnd s) := by
    simp [Dragging, tools.Line, State.newCell, trackDrag, addEventListener, State.listeners,
      State.setListeners, h₁, h₂]
  have hd0 : (tools.Line e0 onEnd s).cx.drawn = s.cx.drawn := by
    simp [tools.Line, State.newCell, trackDrag, addEventListener, State.listeners,
      State.setListeners, h₁, h₂]
  have hc0 : (tools.Line e0 onEnd s).readCell s.nextId = relativePos e0 s.rect := by
    simp [tools.Line, State.newCell, trackDrag, addEventListener, State.listeners,
      State.setListeners, h₁, h₂, State.readCell, List.lookup]
  obtain ⟨s₁, hrun, hd, hdr⟩ := run_deliveries_line moves _ h0
  have hup : (dispatch .mouseup up s₁).cx.drawn = s₁.cx.drawn := by
    rw [dispatch_mouseup_dragging hd]
    cases onEnd with
    | none => rfl
    | some f => rw [Closure.call_drawn f _ _ (fun c hc => hend c (by rw [hc]))]
  have hfin : (dispatch .mouseup up s₁).cx.drawn = s.cx.drawn ++
      strokes (relativePos e0 s.rect :: moves.map (fun m => relativePos m.2 m.1)) := by
    rw [hup, hdr, hd0, hc0]
  refine ⟨dispatch .mouseup up s₁, ?_, hfin, ?_⟩
  · rw [run_append hrun]; simp [run, step]
  · intro hm
    rw [hfin, hm]; simp [strokes]

theorem line_gesture_segments_witness :
    ((createPaint ⟨50, 40⟩).onMousemove = [] ∧ (createPaint ⟨50, 40⟩).onMouseup = [] ∧
      ∀ c, (none : Option Closure) ≠ some (.lineMove c)) ∧
    ∃ s', run (tools.Line ⟨150, 90, 1⟩ none (createPaint ⟨50, 40⟩))
        (deliveries [(⟨50, 40⟩, ⟨160, 95, 1⟩), (⟨0, 0⟩, ⟨170, 99, 1⟩)] ++
          [.mouseup ⟨170, 99, 1⟩]) = .ok s' ∧
      s'.cx.drawn = (createPaint ⟨50, 40⟩).cx.drawn ++
        strokes (relativePos ⟨150, 90, 1⟩ (createPaint ⟨50, 40⟩).rect ::
          [((⟨50, 40⟩ : Rect), (⟨160, 95, 1⟩ : MouseEvent)),
            (⟨0, 0⟩, ⟨170, 99, 1⟩)].map (fun m => relativePos m.2 m.1)) ∧
      ([((⟨50, 40⟩ : Rect), (⟨160, 95, 1⟩ : MouseEvent)), (⟨0, 0⟩, ⟨170, 99, 1⟩)] = [] →
        s'.cx.drawn = (createPaint ⟨50, 40⟩).cx.drawn) :=
  ⟨⟨rfl, rfl, fun _ h => nomatch h⟩,
    line_gesture_segments ⟨150, 90, 1⟩ none (createPaint ⟨50, 40⟩)
      [(⟨50, 40⟩, ⟨160, 95, 1⟩), (⟨0, 0⟩, ⟨170, 99, 1⟩)] ⟨170, 99, 1⟩ rfl rfl
      (fun _ h => nomatch h)⟩

theorem erase_dragging (e0 : MouseEvent) (s : State)
    (h₁ : s.onMousemove = []) (h₂ : s.onMouseup = []) :
    Dragging (.lineMove s.nextId) (some .eraseEnd) (s.nextId + 1) (tools.Erase e0 s) := by
  simp [Dragging, tools.Erase, tools.Line, State.newCell, trackDrag, addEventListener,
    State.listeners, State.setListeners, h₁, h₂]

/-- During a Line session the moves leave the composite operation alone. -/
theorem run_moves_line_composite {c : ℕ} {onEnd : Option Closure} {id : ℕ}
    (moves : List MouseEvent) (s : State) (h : Dragging (.lineMove c) onEnd id s) :
    ∃ s', run s (moves.map .mousemove) = .ok s' ∧ Dragging (.lineMove c) onEnd id s' ∧
      s'.calls = s.calls ++
        moves.map (fun e => Call.listener .mousemove (.fn (.lineMove c)) e) ∧
      s'.cx.globalCompositeOperation = s.cx.globalCompositeOperation := by
  induction moves generalizing s with
  | nil => exact ⟨s, rfl, h, by simp, rfl⟩
  | cons e es ih =>
      obtain ⟨s', hrun, hd, hc, hg⟩ := ih (dispatch .mousemove e s) (dragging_mousemove h e)
      refine ⟨s', ?_, hd, ?_, ?_⟩
      · simpa [run, step] using hrun
      · rw [hc, calls_mousemove_dragging h]; simp
      · rw [hg, dispatch_mousemove_dragging h, lineMove_composite]; rfl

/-- C2: an Erase gesture started with no other session in progress has
`globalCompositeOperation` equal to `destination-out` right after its start and after every
number of moves, and equal to `source-over` after the release; the restoring end hook is
called exactly once, by the terminator, also when there is no move at all. -/
theorem erase_gesture_composite (e0 : MouseEvent) (s : State) (moves : List MouseEvent)
    (up : MouseEvent) (h₁ : s.onMousemove = []) (h₂ : s.onMouseup = []) :
    (tools.Erase e0 s).cx.globalCompositeOperation = "destination-out" ∧
    (∀ k, ∃ sk, run (tools.Erase e0 s) ((moves.take k).map .mousemove) = .ok sk ∧
      sk.cx.globalCompositeOperation = "destination-out") ∧
    ∃ s', run (tools.Erase e0 s) (moves.map .mousemove ++ [.mouseup up]) = .ok s' ∧
      s'.cx.globalCompositeOperation = "source-over" ∧
      s'.calls = s.calls ++
        moves.map (fun e => Call.listener .mousemove (.fn (.lineMove s.nextId)) e) ++
        [.listener .mouseup (.dragEnd (s.nextId + 1) (.lineMove s.nextId) (some .eraseEnd)) up,
          .onEnd .eraseEnd up] := by
  have h0 := erase_dragging e0 s h₁ h₂
  have hg0 : (tools.Erase e0 s).cx.globalCompositeOperation = "destination-out" := by
    simp [tools.Erase, tools.Line, State.newCell, trackDrag, addEventListener,
      State.listeners, State.setListeners, h₁, h₂]
  have hc0 : (tools.Erase e0 s).calls = s.calls := by
    simp [tools.Erase, tools.Line, State.newCell, trackDrag, addEventListener,
      State.listeners, State.setListeners, h₁, h₂]
  refine ⟨hg0, ?_, ?_⟩
  · intro k
    obtain ⟨sk, hrun, _, _, hg⟩ := run_moves_line_composite (moves.take k) _ h0
    exact ⟨sk, hrun, by rw [hg, hg0]⟩
  · obtain ⟨s₁, hrun, hd, hc, _⟩ := run_moves_line_composite moves _ h0
    refine ⟨dispatch .mouseup up s₁, ?_, ?_, ?_⟩
    · rw [run_append hrun]; simp [run, step]
    · rw [dispatch_mouseup_dragging hd]; rfl
    · rw [dispatch_mouseup_dragging hd]
      simp [Closure.call, hc, hc0]

theorem erase_gesture_composite_witness :
    ((createPaint ⟨50, 40⟩).onMousemove = [] ∧ (createPaint ⟨50, 40⟩).onMouseup = []) ∧
    ((tools.Erase ⟨150, 90, 1⟩ (createPaint ⟨50, 40⟩)).cx.globalCompositeOperation =
        "destination-out" ∧
    (∀ k, ∃ sk, run (tools.Erase ⟨150, 90, 1⟩ (createPaint ⟨50, 40⟩))
        ((([⟨160, 95, 1⟩] : List MouseEvent).take k).map .mousemove) = .ok sk ∧
      sk.cx.globalCompositeOperation = "destination-out") ∧
    ∃ s', run (tools.Erase ⟨150, 90, 1⟩ (createPaint ⟨50, 40⟩))
        (([⟨160, 95, 1⟩] : List MouseEvent).map .mousemove ++ [.mouseup ⟨170, 99, 1⟩]) =
          .ok s' ∧
      s'.cx.globalCompositeOperation = "source-over" ∧
      s'.calls = (createPaint ⟨50, 40⟩).calls ++
        ([⟨160, 95, 1⟩] : List MouseEvent).map
          (fun e => Call.listener .mousemove
            (.fn (.lineMove (createPaint ⟨50, 40⟩).nextId)) e) ++
        [.listener .mouseup (.dragEnd ((createPaint ⟨50, 40⟩).nextId + 1)
            (.lineMove (createPaint ⟨50, 40⟩).nextId) (some .eraseEnd)) ⟨170, 99, 1⟩,
          .onEnd .eraseEnd ⟨170, 99, 1⟩]) :=
  ⟨⟨rfl, rfl⟩, erase_gesture_composite ⟨150, 90, 1⟩ (createPaint ⟨50, 40⟩) [⟨160, 95, 1⟩]
    ⟨170, 99, 1⟩ rfl rfl⟩

theorem randomPointInRadius_eq (radius : ℚ) (draws : List ℚ) :
    (randomPointInRadius radius draws).map Prod.fst =
      ((candidates draws).find? passesTest).map (scaled radius) := by
  induction draws using randomPointInRadius.induct radius with
  | case1 u v rest x y h =>
      have hc : passesTest (fl (fl (u * 2) - 1), fl (fl (v * 2) - 1)) = true := by
        simp only [passesTest, decide_eq_true_eq]; exact h
      simp only [randomPointInRadius, candidates]
      rw [if_pos h, List.find?_cons_of_pos _ hc]
      rfl
  | case2 u v rest x y h ih =>
      have hc : ¬ passesTest (fl (fl (u * 2) - 1), fl (fl (v * 2) - 1)) = true := by
        simp only [passesTest, decide_eq_true_eq]; exact h
      simp only [randomPointInRadius, candidates]
      rw [if_neg h, List.find?_cons_of_neg _ hc]
      exact ih
  | case3 draws h =>
      match draws, h with
      | [], _ => simp [randomPointInRadius, candidates]
      | [_], _ => simp [randomPointInRadius, candidates]
      | u :: v :: rest, h => exact absurd rfl (h u v rest)

theorem randomPointInRadius_some {radius : ℚ} {draws rest : List ℚ} {o : Offset}
    (h : randomPointInRadius radius draws = some (o, rest)) :
    ∃ c, accepted draws = c :: accepted rest ∧ o = scaled radius c := by
  induction draws using randomPointInRadius.induct radius with
  | case1 u v tl x y hxy =>
      simp only [randomPointInRadius] at h
      rw [if_pos hxy] at h
      simp only [Option.some.injEq, Prod.mk.injEq] at h
      have hc : passesTest (fl (fl (u * 2) - 1), fl (fl (v * 2) - 1)) = true := by
        simp only [passesTest, decide_eq_true_eq]; exact hxy
      refine ⟨(fl (fl (u * 2) - 1), fl (fl (v * 2) - 1)), ?_, ?_⟩
      · rw [← h.2]
        simp only [accepted, candidates]
        rw [List.filter_cons_of_pos hc]
      · rw [← h.1]; rfl
  | case2 u v tl x y hxy ih =>
      simp only [randomPointInRadius] at h
      rw [if_neg hxy] at h
      have hc : ¬ passesTest (fl (fl (u * 2) - 1), fl (fl (v * 2) - 1)) = true := by
        simp only [passesTest, decide_eq_true_eq]; exact hxy
      obtain ⟨c, hc', ho⟩ := ih h
      refine ⟨c, ?_, ho⟩
      rw [← hc']
      simp only [accepted, candidates]
      rw [List.filter_cons_of_neg hc]
  | case3 draws hd =>
      match draws, hd with
      | [], _ => simp [randomPointInRadius] at h
      | [_], _ => simp [randomPointInRadius] at h
      | u :: v :: tl, hd => exact absurd rfl (hd u v tl)

theorem randomPointInRadius_none {radius : ℚ} {draws : List ℚ}
    (h : randomPointInRadius radius draws = none) : accepted draws = [] := by
  induction draws using randomPointInRadius.induct radius with
  | case1 u v tl x y hxy =>
      simp only [randomPointInRadius] at h
      rw [if_pos hxy] at h
      exact absurd h (by simp)
  | case2 u v tl x y hxy ih =>
      simp only [randomPointInRadius] at h
      rw [if_neg hxy] at h
      have hc : ¬ passesTest (fl (fl (u * 2) - 1), fl (fl (v * 2) - 1)) = true := by
        simp only [passesTest, decide_eq_true_eq]; exact hxy
      simp only [accepted, candidates]
      rw [List.filter_cons_of_neg hc]
      exact ih h
  | case3 draws hd =>
      match draws, hd with
      | [], _ => rfl
      | [_], _ => rfl
      | u :: v :: tl, hd => exact absurd rfl (hd u v tl)

theorem State.drawAll_nil (s : State) : s.drawAll [] = s := by
  simp [State.drawAll]

theorem State.draw_drawAll (s : State) (d : DrawCall) (ds : List DrawCall) :
    (s.draw d).drawAll ds = s.drawAll (d :: ds) := by
  simp [State.drawAll, State.draw]

/-- The loop of a tick plots the first `n` accepted candidates around the anchor, and fails
exactly when fewer than `n` candidates are accepted. -/
theorem sprayLoop_eq (f : SprayTick) (n : ℕ) (draws : List ℚ) (s : State) :
    sprayLoop f n draws s =
      if n ≤ (accepted draws).length then
        .ok (s.drawAll (((accepted draws).take n).map (dot f.radius (s.readCell f.cur))))
      else .error .outOfDraws := by
  induction n generalizing draws s with
  | zero => simp [sprayLoop, State.drawAll_nil]
  | succ n ih =>
      simp only [sprayLoop]
      cases hr : randomPointInRadius f.radius draws with
      | none => simp [randomPointInRadius_none hr]
      | some p =>
          obtain ⟨o, rest⟩ := p
          obtain ⟨c, hc, ho⟩ := randomPointInRadius_some hr
          simp only [ih, hc, List.length_cons, Nat.add_le_add_iff_right, List.take_succ_cons,
            List.map_cons, State.draw_drawAll]
          have hcell : (s.draw (.fillRect (fl ((s.readCell f.cur).x + o.x))
              (fl ((s.readCell f.cur).y + o.y)) 1 1)).readCell f.cur = s.readCell f.cur := rfl
          rw [hcell]
          simp [dot, ho]

theorem spray_spraying (e0 : MouseEvent) (s : State) (hs : s.Idle) :
    Spraying (sprayTickOf s) (s.nextId + 1) (s.nextId + 2) (tools.Spray e0 s) := by
  obtain ⟨h₁, h₂, h₃⟩ := hs
  simp [Spraying, Dragging, sprayTickOf, dotsFor, tools.Spray, State.newCell, setInterval,
    trackDrag, addEventListener, State.listeners, State.setListeners, h₁, h₂, h₃]

theorem spray_cx (e0 : MouseEvent) (s : State) (hs : s.Idle) :
    (tools.Spray e0 s).cx = s.cx := by
  obtain ⟨h₁, h₂, h₃⟩ := hs
  simp [tools.Spray, State.newCell, setInterval,
    trackDrag, addEventListener, State.listeners, State.setListeners, h₁, h₂, h₃]

theorem spray_readCell (e0 : MouseEvent) (s : State) (hs : s.Idle) :
    (tools.Spray e0 s).readCell s.nextId = relativePos e0 s.rect := by
  obtain ⟨h₁, h₂, h₃⟩ := hs
  simp [tools.Spray, State.newCell, setInterval, State.readCell, List.lookup,
    trackDrag, addEventListener, State.listeners, State.setListeners, h₁, h₂, h₃]

/-- A tick of the gesture's interval plots the first `dotsPerTick` accepted candidates, and
does not end when the bound is out of reach or the draws run out. -/
theorem step_tick_spraying {f : SprayTick} {t id : ℕ} {s : State} (h : Spraying f t id s)
    (draws : List ℚ) :
    step s (.tick t draws) =
      if f.dotsPerTick ≤ 2 ^ 53 ∧ f.dotsPerTick.toNat ≤ (accepted draws).length then
        .ok (s.drawAll (((accepted draws).take f.dotsPerTick.toNat).map
          (dot f.radius (s.readCell f.cur))))
      else .error .outOfDraws := by
  simp only [step, h.2, List.lookup, beq_self_eq_true, SprayTick.call, sprayLoop_eq]
  by_cases h₁ : f.dotsPerTick ≤ 2 ^ 53
  · by_cases h₂ : f.dotsPerTick.toNat ≤ (accepted draws).length
    · rw [if_pos h₁, if_pos h₂, if_pos ⟨h₁, h₂⟩]
    · rw [if_pos h₁, if_neg h₂, if_neg (fun hc => h₂ hc.2)]
  · rw [if_neg h₁, if_neg (fun hc => h₁ hc.1)]

theorem spraying_drawAll {f : SprayTick} {t id : ℕ} {s : State} (h : Spraying f t id s)
    (ds : List DrawCall) : Spraying f t id (s.drawAll ds) := h

/-- Inputs other than a press keep an idle page idle and draw nothing. -/
theorem step_idle {s : State} (hs : s.Idle) {i : Input} (hi : ¬ i.isPress) :
    ∃ s', step s i = .ok s' ∧ s'.Idle ∧ s'.cx.drawn = s.cx.drawn := by
  cases i with
  | mousedown _ _ _ => exact absurd trivial hi
  | mousemove ev => exact ⟨s, by simp [step, dispatch_nil .mousemove ev s hs.1], hs, rfl⟩
  | mouseup ev => exact ⟨s, by simp [step, dispatch_nil .mouseup ev s hs.2.1], hs, rfl⟩
  | tick id draws => exact ⟨s, by simp [step, hs.2.2, List.lookup], hs, rfl⟩
  | layout r => exact ⟨_, rfl, hs, rfl⟩
  | brushSize w => exact ⟨_, rfl, hs, rfl⟩

theorem run_idle (is : List Input) {s : State} (hs : s.Idle) (hi : ∀ i ∈ is, ¬ i.isPress) :
    ∃ s', run s is = .ok s' ∧ s'.Idle ∧ s'.cx.drawn = s.cx.drawn := by
  induction is generalizing s with
  | nil => exact ⟨s, rfl, hs, rfl⟩
  | cons i is ih =>
      obtain ⟨s₁, h₁, hs₁, hd₁⟩ := step_idle hs (hi i (List.mem_cons_self _ _))
      obtain ⟨s', h', hs', hd'⟩ := ih hs₁ (fun j hj => hi j (List.mem_cons_of_mem _ hj))
      exact ⟨s', by simp [run, h₁, h'], hs', by rw [hd', hd₁]⟩

/-- The release of a Spray gesture clears its interval. -/
theorem mouseup_spraying {f : SprayTick} {t id : ℕ} {s : State} (h : Spraying f t id s)
    (up : MouseEvent) :
    (dispatch .mouseup up s).Idle ∧ (dispatch .mouseup up s).cx = s.cx := by
  rw [dispatch_mouseup_dragging h.1]
  simp [State.Idle, Closure.call, clearInterval, h.2]

/-- Inputs other than a press keep a Spray gesture in progress with its interval, or end
it with the interval cleared. -/
theorem step_spraying {f : SprayTick} {t id : ℕ} {s s' : State} (h : Spraying f t id s)
    {i : Input} (hi : ¬ i.isPress) (hstep : step s i = .ok s') :
    (Spraying f t id s' ∧ ¬ i.isRelease) ∨ (s'.Idle ∧ i.isRelease) := by
  cases i with
  | mousedown _ _ _ => exact absurd trivial hi
  | mousemove ev =>
      simp only [step, Except.ok.injEq] at hstep
      subst hstep
      refine Or.inl ⟨⟨dragging_mousemove h.1 ev, ?_⟩, fun hr => hr⟩
      rw [dispatch_mousemove_dragging h.1]
      exact h.2
  | mouseup ev =>
      simp only [step, Except.ok.injEq] at hstep
      subst hstep
      exact Or.inr ⟨(mouseup_spraying h ev).1, trivial⟩
  | tick id' draws =>
      refine Or.inl ⟨?_, fun hr => hr⟩
      by_cases hid : id' = t
      · subst hid
        rw [step_tick_spraying h] at hstep
        split at hstep
        · simp only [Except.ok.injEq] at hstep
          subst hstep
          exact spraying_drawAll h _
        · exact absurd hstep (by simp)
      · have : step s (.tick id' draws) = .ok s := by
          have hb : (id' == t) = false := by simpa using hid
          simp [step, h.2, List.lookup, hb]
        rw [this] at hstep
        simp only [Except.ok.injEq] at hstep
        subst hstep
        exact h
  | layout r =>
      simp only [step, Except.ok.injEq] at hstep
      subst hstep
      exact Or.inl ⟨h, fun hr => hr⟩
  | brushSize w =>
      simp only [step, Except.ok.injEq] at hstep
      subst hstep
      exact Or.inl ⟨h, fun hr => hr⟩

/-- A run without a press leaves a Spray gesture in progress or the page idle. -/
theorem run_spraying {f : SprayTick} {t id : ℕ} (is : List Input) {s s' : State}
    (h : Spraying f t id s ∨ s.Idle) (hi : ∀ i ∈ is, ¬ i.isPress)
    (hrun : run s is = .ok s') : Spraying f t id s' ∨ s'.Idle := by
  induction is generalizing s with
  | nil => simp only [run, Except.ok.injEq] at hrun; subst hrun; exact h
  | cons i is ih =>
      simp only [run] at hrun
      cases hstep : step s i with
      | error e => simp [hstep] at hrun
      | ok s₁ =>
          simp only [hstep] at hrun
          have hip := hi i (List.mem_cons_self _ _)
          refine ih ?_ (fun j hj => hi j (List.mem_cons_of_mem _ hj)) hrun
          rcases h with h | h
          · rcases step_spraying h hip hstep with h' | h'
            · exact Or.inl h'.1
            · exact Or.inr h'.1
          · obtain ⟨s₂, h₂, hs₂, _⟩ := step_idle h hip
            rw [hstep] at h₂
            simp only [Except.ok.injEq] at h₂
            subst h₂
            exact Or.inr hs₂

/-- A run without press or release leaves a Spray gesture in progress. -/
theorem run_spraying_held {f : SprayTick} {t id : ℕ} (is : List Input) {s s' : State}
    (h : Spraying f t id s) (hi : ∀ i ∈ is, ¬ i.isPress ∧ ¬ i.isRelease)
    (hrun : run s is = .ok s') : Spraying f t id s' := by
  induction is generalizing s with
  | nil => simp only [run, Except.ok.injEq] at hrun; subst hrun; exact h
  | cons i is ih =>
      simp only [run] at hrun
      cases hstep : step s i with
      | error e => simp [hstep] at hrun
      | ok s₁ =>
          simp only [hstep] at hrun
          have hip := hi i (List.mem_cons_self _ _)
          refine ih ?_ (fun j hj => hi j (List.mem_cons_of_mem _ hj)) hrun
          rcases step_spraying h hip.1 hstep with h' | h'
          · exact h'.1
          · exact absurd h'.2 hip.2

/-- C4: once the `mouseup` that ends a Spray gesture has been processed, whatever ticks,
moves and other inputs (short of a new press) came before it, the interval is no longer
active, and every later run of ticks, moves and releases terminates and draws nothing. -/
theorem spray_timer_cancelled (e0 : MouseEvent) (s : State) (pre : List Input)
    (up : MouseEvent) (s₂ : State) (hs : s.Idle) (hpre : ∀ i ∈ pre, ¬ i.isPress)
    (hrun : run (tools.Spray e0 s) (pre ++ [.mouseup up]) = .ok s₂) :
    s₂.timers = [] ∧
    ∀ post : List Input, (∀ i ∈ post, ¬ i.isPress) →
      ∃ s₃, run s₂ post = .ok s₃ ∧ s₃.cx.drawn = s₂.cx.drawn := by
  obtain ⟨s₁, hrun₁, hup⟩ := run_append_ok hrun
  have h₁ := run_spraying pre (Or.inl (spray_spraying e0 s hs)) hpre hrun₁
  have hidle : s₂.Idle := by
    simp only [run, step, Except.ok.injEq] at hup
    subst hup
    rcases h₁ with h | h
    · exact (mouseup_spraying h up).1
    · rw [dispatch_nil .mouseup up s₁ h.2.1]; exact h
  refine ⟨hidle.2.2, fun post hpost => ?_⟩
  obtain ⟨s₃, h₃, _, hd⟩ := run_idle post hidle hpost
  exact ⟨s₃, h₃, hd⟩

theorem ulpExp_eq {q : ℚ} {k : ℤ} (h₁ : (2 : ℚ) ^ k ≤ |q|) (h₂ : |q| < (2 : ℚ) ^ (k + 1)) :
    ulpExp q = max (k - 52) (-1074) := by
  have hpos : 0 < |q| := lt_of_lt_of_le (by positivity) h₁
  have hlog : Int.log 2 |q| = k := by
    apply le_antisymm
    · have := (Int.lt_zpow_iff_log_lt (b := 2) (by norm_num) hpos (x := k + 1)).1
        (by exact_mod_cast h₂)
      omega
    · exact (Int.zpow_le_iff_le_log (b := 2) (by norm_num) hpos).1 (by exact_mod_cast h₁)
  rw [ulpExp, hlog]

theorem roundHalfEven_eq {x : ℚ} {m : ℤ} (h₁ : (m : ℚ) - 1 / 2 < x) (h₂ : x < m + 1 / 2) :
    roundHalfEven x = m := by
  unfold roundHalfEven
  by_cases hx : (m : ℚ) ≤ x
  · have hf : ⌊x⌋ = m := Int.floor_eq_iff.2 ⟨hx, by linarith⟩
    rw [hf, if_pos (by linarith)]
  · have hx' : x < m := not_le.1 hx
    have hf : ⌊x⌋ = m - 1 := Int.floor_eq_iff.2 ⟨by push_cast; linarith, by push_cast; linarith⟩
    rw [hf, if_neg (by push_cast; linarith), if_pos (by push_cast; linarith)]
    ring

theorem roundHalfEven_nonneg {x : ℚ} (h : 0 ≤ x) : 0 ≤ roundHalfEven x := by
  have hf : 0 ≤ ⌊x⌋ := Int.floor_nonneg.2 h
  unfold roundHalfEven
  split
  · exact hf
  · split
    · omega
    · split <;> omega

/-- A certificate for one rounding of a positive value: its binary exponent `k` and the
rounded significand `m`. -/
theorem fl_eq_pos {q : ℚ} (k m : ℤ) (h₁ : (2 : ℚ) ^ k ≤ q) (h₂ : q < (2 : ℚ) ^ (k + 1))
    (h₃ : (m : ℚ) - 1 / 2 < q / 2 ^ max (k - 52) (-1074))
    (h₄ : q / 2 ^ max (k - 52) (-1074) < m + 1 / 2) :
    fl q = m * 2 ^ max (k - 52) (-1074) := by
  have hq : 0 ≤ q := le_trans (by positivity) h₁
  have h₁' : (2 : ℚ) ^ k ≤ |q| := by rwa [abs_of_nonneg hq]
  have h₂' : |q| < (2 : ℚ) ^ (k + 1) := by rwa [abs_of_nonneg hq]
  rw [fl, ulpExp_eq h₁' h₂', roundHalfEven_eq h₃ h₄]

/-- A certificate for one rounding of a negative value. -/
theorem fl_eq_neg {q : ℚ} (k m : ℤ) (h₁ : (2 : ℚ) ^ k ≤ -q) (h₂ : -q < (2 : ℚ) ^ (k + 1))
    (h₃ : (m : ℚ) - 1 / 2 < q / 2 ^ max (k - 52) (-1074))
    (h₄ : q / 2 ^ max (k - 52) (-1074) < m + 1 / 2) :
    fl q = m * 2 ^ max (k - 52) (-1074) := by
  have hq : q ≤ 0 := by
    have : (0 : ℚ) ≤ -q := le_trans (by positivity) h₁
    linarith
  have h₁' : (2 : ℚ) ^ k ≤ |q| := by rwa [abs_of_nonpos hq]
  have h₂' : |q| < (2 : ℚ) ^ (k + 1) := by rwa [abs_of_nonpos hq]
  rw [fl, ulpExp_eq h₁' h₂', roundHalfEven_eq h₃ h₄]

theorem fl_zero : fl 0 = 0 := by
  simp [fl, roundHalfEven]

theorem fl_nonneg {q : ℚ} (h : 0 ≤ q) : 0 ≤ fl q := by
  unfold fl
  have hx : 0 ≤ q / 2 ^ ulpExp q := div_nonneg h (by positivity)
  have := roundHalfEven_nonneg hx
  have h2 : (0 : ℚ) ≤ (roundHalfEven (q / 2 ^ ulpExp q) : ℚ) := by exact_mod_cast this
  exact mul_nonneg h2 (by positivity)

theorem Math.PI_pos : 0 < Math.PI := by norm_num [Math.PI]

theorem dotsFor_nonneg (w : ℚ) : 0 ≤ dotsFor w := by
  unfold dotsFor
  apply Int.ceil_nonneg
  apply fl_nonneg
  apply div_nonneg _ (by norm_num)
  apply fl_nonneg
  apply mul_nonneg _ Math.PI_pos.le
  apply fl_nonneg
  exact mul_self_nonneg _

theorem roundHalfEven_tie {x : ℚ} {m : ℤ} (h : x = m + 1 / 2 ∨ x = m - 1 / 2)
    (he : m % 2 = 0) : roundHalfEven x = m := by
  unfold roundHalfEven
  rcases h with h | h
  · have hf : ⌊x⌋ = m := Int.floor_eq_iff.2 ⟨by rw [h]; linarith, by rw [h]; linarith⟩
    rw [hf, if_neg (by rw [h]; norm_num), if_neg (by rw [h]; norm_num), if_pos he]
  · have hf : ⌊x⌋ = m - 1 :=
      Int.floor_eq_iff.2 ⟨by rw [h]; push_cast; linarith, by rw [h]; push_cast; linarith⟩
    have ho : ¬ (m - 1) % 2 = 0 := by omega
    rw [hf, if_neg (by rw [h]; push_cast; norm_num), if_neg (by rw [h]; push_cast; norm_num),
      if_neg ho]
    ring

/-- A certificate for the rounding of a positive value halfway between two doubles. -/
theorem fl_eq_tie_pos {q : ℚ} (k m : ℤ) (h₁ : (2 : ℚ) ^ k ≤ q) (h₂ : q < (2 : ℚ) ^ (k + 1))
    (h : q / 2 ^ max (k - 52) (-1074) = m + 1 / 2 ∨ q / 2 ^ max (k - 52) (-1074) = m - 1 / 2)
    (he : m % 2 = 0) : fl q = m * 2 ^ max (k - 52) (-1074) := by
  have hq : 0 ≤ q := le_trans (by positivity) h₁
  have h₁' : (2 : ℚ) ^ k ≤ |q| := by rwa [abs_of_nonneg hq]
  have h₂' : |q| < (2 : ℚ) ^ (k + 1) := by rwa [abs_of_nonneg hq]
  rw [fl, ulpExp_eq h₁' h₂', roundHalfEven_tie h he]

/-- A certificate for the rounding of a negative value halfway between two doubles. -/
theorem fl_eq_tie_neg {q : ℚ} (k m : ℤ) (h₁ : (2 : ℚ) ^ k ≤ -q) (h₂ : -q < (2 : ℚ) ^ (k + 1))
    (h : q / 2 ^ max (k - 52) (-1074) = m + 1 / 2 ∨ q / 2 ^ max (k - 52) (-1074) = m - 1 / 2)
    (he : m % 2 = 0) : fl q = m * 2 ^ max (k - 52) (-1074) := by
  have hq : q ≤ 0 := by
    have : (0 : ℚ) ≤ -q := le_trans (by positivity) h₁
    linarith
  have h₁' : (2 : ℚ) ^ k ≤ |q| := by rwa [abs_of_nonpos hq]
  have h₂' : |q| < (2 : ℚ) ^ (k + 1) := by rwa [abs_of_nonpos hq]
  rw [fl, ulpExp_eq h₁' h₂', roundHalfEven_tie h he]

/-- The rounding of a positive value, from its binary exponent `k` and its rounded
significand `m`. -/
theorem fl_pos {q v : ℚ} (k m : ℤ)
    (h : (2 : ℚ) ^ k ≤ q ∧ q < (2 : ℚ) ^ (k + 1) ∧
      (m : ℚ) - 1 / 2 < q / 2 ^ max (k - 52) (-1074) ∧
      q / 2 ^ max (k - 52) (-1074) < m + 1 / 2 ∧ (m : ℚ) * 2 ^ max (k - 52) (-1074) = v) :
    fl q = v := by
  rw [fl_eq_pos k m h.1 h.2.1 h.2.2.1 h.2.2.2.1]; exact h.2.2.2.2

/-- The rounding of a negative value. -/
theorem fl_neg {q v : ℚ} (k m : ℤ)
    (h : (2 : ℚ) ^ k ≤ -q ∧ -q < (2 : ℚ) ^ (k + 1) ∧
      (m : ℚ) - 1 / 2 < q / 2 ^ max (k - 52) (-1074) ∧
      q / 2 ^ max (k - 52) (-1074) < m + 1 / 2 ∧ (m : ℚ) * 2 ^ max (k - 52) (-1074) = v) :
    fl q = v := by
  rw [fl_eq_neg k m h.1 h.2.1 h.2.2.1 h.2.2.2.1]; exact h.2.2.2.2

/-- The rounding of a positive value halfway between two doubles. -/
theorem fl_tie_pos {q v : ℚ} (k m : ℤ)
    (h : (2 : ℚ) ^ k ≤ q ∧ q < (2 : ℚ) ^ (k + 1) ∧
      (q / 2 ^ max (k - 52) (-1074) = m + 1 / 2 ∨ q / 2 ^ max (k - 52) (-1074) = m - 1 / 2) ∧
      m % 2 = 0 ∧ (m : ℚ) * 2 ^ max (k - 52) (-1074) = v) :
    fl q = v := by
  rw [fl_eq_tie_pos k m h.1 h.2.1 h.2.2.1 h.2.2.2.1]; exact h.2.2.2.2

/-- The rounding of a negative value halfway between two doubles. -/
theorem fl_tie_neg {q v : ℚ} (k m : ℤ)
    (h : (2 : ℚ) ^ k ≤ -q ∧ -q < (2 : ℚ) ^ (k + 1) ∧
      (q / 2 ^ max (k - 52) (-1074) = m + 1 / 2 ∨ q / 2 ^ max (k - 52) (-1074) = m - 1 / 2) ∧
      m % 2 = 0 ∧ (m : ℚ) * 2 ^ max (k - 52) (-1074) = v) :
    fl q = v := by
  rw [fl_eq_tie_neg k m h.1 h.2.1 h.2.2.1 h.2.2.2.1]; exact h.2.2.2.2

theorem fl_of_eq_zero {q : ℚ} (h : q = 0) : fl q = 0 := by
  rw [h]; exact fl_zero

theorem dotsFor_one : dotsFor 1 = 1 := by
  have h₁ : fl (1 / 2) = (1 / 2) := fl_pos (-1) 4503599627370496 (by norm_num)
  have h₂ : fl ((1 / 2) * (1 / 2)) = (1 / 4) := fl_pos (-2) 4503599627370496 (by norm_num)
  have h₃ : fl ((1 / 4) * Math.PI) = (884279719003555 / 1125899906842624) :=
    (congrArg fl (show ((1 / 4) * Math.PI : ℚ) = (884279719003555 / 1125899906842624) by
      norm_num [Math.PI])).trans (fl_pos (-1) 7074237752028440 (by norm_num))
  have h₄ : fl ((884279719003555 / 1125899906842624) / 30) =
      (7545853602163669 / 288230376151711744) :=
    fl_pos (-6) 7545853602163669 (by norm_num)
  rw [dotsFor, h₁, h₂, h₃, h₄, Int.ceil_eq_iff]
  norm_num

theorem dotsFor_two : dotsFor 2 = 1 := by
  have h₁ : fl (2 / 2) = 1 := fl_pos 0 4503599627370496 (by norm_num)
  have h₂ : fl (1 * 1) = 1 := fl_pos 0 4503599627370496 (by norm_num)
  have h₃ : fl (1 * Math.PI) = (884279719003555 / 281474976710656) :=
    (congrArg fl (show (1 * Math.PI : ℚ) = (884279719003555 / 281474976710656) by
      norm_num [Math.PI])).trans (fl_pos 1 7074237752028440 (by norm_num))
  have h₄ : fl ((884279719003555 / 281474976710656) / 30) =
      (7545853602163669 / 72057594037927936) :=
    fl_pos (-4) 7545853602163669 (by norm_num)
  rw [dotsFor, h₁, h₂, h₃, h₄, Int.ceil_eq_iff]
  norm_num

theorem dotsFor_three : dotsFor 3 = 1 := by
  have h₁ : fl (3 / 2) = (3 / 2) := fl_pos 0 6755399441055744 (by norm_num)
  have h₂ : fl ((3 / 2) * (3 / 2)) = (9 / 4) := fl_pos 1 5066549580791808 (by norm_num)
  have h₃ : fl ((9 / 4) * Math.PI) = (7958517471031995 / 1125899906842624) :=
    (congrArg fl (show ((9 / 4) * Math.PI : ℚ) = (7958517471031995 / 1125899906842624) by
      norm_num [Math.PI])).trans (fl_pos 2 7958517471031995 (by norm_num))
  have h₄ : fl ((7958517471031995 / 1125899906842624) / 30) =
      (530567831402133 / 2251799813685248) :=
    fl_pos (-3) 8489085302434128 (by norm_num)
  rw [dotsFor, h₁, h₂, h₃, h₄, Int.ceil_eq_iff]
  norm_num

theorem dotsFor_four : dotsFor 4 = 1 := by
  have h₁ : fl (4 / 2) = 2 := fl_pos 1 4503599627370496 (by norm_num)
  have h₂ : fl (2 * 2) = 4 := fl_pos 2 4503599627370496 (by norm_num)
  have h₃ : fl (4 * Math.PI) = (884279719003555 / 70368744177664) :=
    (congrArg fl (show (4 * Math.PI : ℚ) = (884279719003555 / 70368744177664) by
      norm_num [Math.PI])).trans (fl_pos 3 7074237752028440 (by norm_num))
  have h₄ : fl ((884279719003555 / 70368744177664) / 30) = (7545853602163669 / 18014398509481984) :=
    fl_pos (-2) 7545853602163669 (by norm_num)
  rw [dotsFor, h₁, h₂, h₃, h₄, Int.ceil_eq_iff]
  norm_num

theorem dotsFor_five : dotsFor 5 = 1 := by
  have h₁ : fl (5 / 2) = (5 / 2) := fl_pos 1 5629499534213120 (by norm_num)
  have h₂ : fl ((5 / 2) * (5 / 2)) = (25 / 4) := fl_pos 2 7036874417766400 (by norm_num)
  have h₃ : fl ((25 / 4) * Math.PI) = (5526748243772219 / 281474976710656) :=
    (congrArg fl (show ((25 / 4) * Math.PI : ℚ) = (22106992975088875 / 1125899906842624) by
      norm_num [Math.PI])).trans (fl_pos 4 5526748243772219 (by norm_num))
  have h₄ : fl ((5526748243772219 / 281474976710656) / 30) =
      (5895198126690367 / 9007199254740992) :=
    fl_pos (-1) 5895198126690367 (by norm_num)
  rw [dotsFor, h₁, h₂, h₃, h₄, Int.ceil_eq_iff]
  norm_num

theorem dotsFor_eight : dotsFor 8 = 2 := by
  have h₁ : fl (8 / 2) = 4 := fl_pos 2 4503599627370496 (by norm_num)
  have h₂ : fl (4 * 4) = 16 := fl_pos 4 4503599627370496 (by norm_num)
  have h₃ : fl (16 * Math.PI) = (884279719003555 / 17592186044416) :=
    (congrArg fl (show (16 * Math.PI : ℚ) = (884279719003555 / 17592186044416) by
      norm_num [Math.PI])).trans (fl_pos 5 7074237752028440 (by norm_num))
  have h₄ : fl ((884279719003555 / 17592186044416) / 30) = (7545853602163669 / 4503599627370496) :=
    fl_pos 0 7545853602163669 (by norm_num)
  rw [dotsFor, h₁, h₂, h₃, h₄, Int.ceil_eq_iff]
  norm_num

theorem dotsFor_twelve : dotsFor 12 = 4 := by
  have h₁ : fl (12 / 2) = 6 := fl_pos 2 6755399441055744 (by norm_num)
  have h₂ : fl (6 * 6) = 36 := fl_pos 5 5066549580791808 (by norm_num)
  have h₃ : fl (36 * Math.PI) = (7958517471031995 / 70368744177664) :=
    (congrArg fl (show (36 * Math.PI : ℚ) = (7958517471031995 / 70368744177664) by
      norm_num [Math.PI])).trans (fl_pos 6 7958517471031995 (by norm_num))
  have h₄ : fl ((7958517471031995 / 70368744177664) / 30) = (530567831402133 / 140737488355328) :=
    fl_pos 1 8489085302434128 (by norm_num)
  rw [dotsFor, h₁, h₂, h₃, h₄, Int.ceil_eq_iff]
  norm_num

theorem dotsFor_twentyfive : dotsFor 25 = 17 := by
  have h₁ : fl (25 / 2) = (25 / 2) := fl_pos 3 7036874417766400 (by norm_num)
  have h₂ : fl ((25 / 2) * (25 / 2)) = (625 / 4) := fl_pos 7 5497558138880000 (by norm_num)
  have h₃ : fl ((625 / 4) * Math.PI) = (2158886032723523 / 4398046511104) :=
    (congrArg fl (show ((625 / 4) * Math.PI : ℚ) = (552674824377221875 / 1125899906842624) by
      norm_num [Math.PI])).trans (fl_pos 8 8635544130894092 (by norm_num))
  have h₄ : fl ((2158886032723523 / 4398046511104) / 30) = (4605623536476849 / 281474976710656) :=
    fl_pos 4 4605623536476849 (by norm_num)
  rw [dotsFor, h₁, h₂, h₃, h₄, Int.ceil_eq_iff]
  norm_num

theorem dotsFor_thirtyfive : dotsFor 35 = 33 := by
  have h₁ : fl (35 / 2) = (35 / 2) := fl_pos 4 4925812092436480 (by norm_num)
  have h₂ : fl ((35 / 2) * (35 / 2)) = (1225 / 4) := fl_pos 8 5387606976102400 (by norm_num)
  have h₃ : fl ((1225 / 4) * Math.PI) = (4231416624138105 / 4398046511104) :=
    (congrArg fl (show ((1225 / 4) * Math.PI : ℚ) = (1083242655779354875 / 1125899906842624) by
      norm_num [Math.PI])).trans (fl_pos 9 8462833248276210 (by norm_num))
  have h₄ : fl ((4231416624138105 / 4398046511104) / 30) = (282094441609207 / 8796093022208) :=
    fl_pos 5 4513511065747312 (by norm_num)
  rw [dotsFor, h₁, h₂, h₃, h₄, Int.ceil_eq_iff]
  norm_num

theorem dotsFor_fifty : dotsFor 50 = 66 := by
  have h₁ : fl (50 / 2) = 25 := fl_pos 4 7036874417766400 (by norm_num)
  have h₂ : fl (25 * 25) = 625 := fl_pos 9 5497558138880000 (by norm_num)
  have h₃ : fl (625 * Math.PI) = (2158886032723523 / 1099511627776) :=
    (congrArg fl (show (625 * Math.PI : ℚ) = (552674824377221875 / 281474976710656) by
      norm_num [Math.PI])).trans (fl_pos 10 8635544130894092 (by norm_num))
  have h₄ : fl ((2158886032723523 / 1099511627776) / 30) = (4605623536476849 / 70368744177664) :=
    fl_pos 6 4605623536476849 (by norm_num)
  rw [dotsFor, h₁, h₂, h₃, h₄, Int.ceil_eq_iff]
  norm_num

theorem dotsFor_seventyfive : dotsFor 75 = 148 := by
  have h₁ : fl (75 / 2) = (75 / 2) := fl_pos 5 5277655813324800 (by norm_num)
  have h₂ : fl ((75 / 2) * (75 / 2)) = (5625 / 4) := fl_pos 10 6184752906240000 (by norm_num)
  have h₃ : fl ((5625 / 4) * Math.PI) = (4857493573627927 / 1099511627776) :=
    (congrArg fl (show ((5625 / 4) * Math.PI : ℚ) = (4974073419394996875 / 1125899906842624) by
      norm_num [Math.PI])).trans (fl_pos 12 4857493573627927 (by norm_num))
  have h₄ : fl ((4857493573627927 / 1099511627776) / 30) = (5181326478536455 / 35184372088832) :=
    fl_pos 7 5181326478536455 (by norm_num)
  rw [dotsFor, h₁, h₂, h₃, h₄, Int.ceil_eq_iff]
  norm_num

theorem dotsFor_hundred : dotsFor 100 = 262 := by
  have h₁ : fl (100 / 2) = 50 := fl_pos 5 7036874417766400 (by norm_num)
  have h₂ : fl (50 * 50) = 2500 := fl_pos 11 5497558138880000 (by norm_num)
  have h₃ : fl (2500 * Math.PI) = (2158886032723523 / 274877906944) :=
    (congrArg fl (show (2500 * Math.PI : ℚ) = (552674824377221875 / 70368744177664) by
      norm_num [Math.PI])).trans (fl_pos 12 8635544130894092 (by norm_num))
  have h₄ : fl ((2158886032723523 / 274877906944) / 30) = (4605623536476849 / 17592186044416) :=
    fl_pos 8 4605623536476849 (by norm_num)
  rw [dotsFor, h₁, h₂, h₃, h₄, Int.ceil_eq_iff]
  norm_num

theorem dotsFor_rounded_down : dotsFor (5218873056883417 / 281474976710656) = 9 := by
  have h₁ : fl ((5218873056883417 / 281474976710656) / 2) = (5218873056883417 / 562949953421312) :=
    fl_pos 3 5218873056883417 (by norm_num)
  have h₂ : fl ((5218873056883417 / 562949953421312) * (5218873056883417 / 562949953421312)) =
      (3023874038261949 / 35184372088832) :=
    fl_pos 6 6047748076523898 (by norm_num)
  have h₃ : fl ((3023874038261949 / 35184372088832) * Math.PI) = 270 :=
    (congrArg fl (show ((3023874038261949 / 35184372088832) * Math.PI : ℚ) = (2673950484856421382318352228695 / 9903520314283042199192993792) by
      norm_num [Math.PI])).trans (fl_pos 8 4749890231992320 (by norm_num))
  have h₄ : fl (270 / 30) = 9 := fl_pos 3 5066549580791808 (by norm_num)
  rw [dotsFor, h₁, h₂, h₃, h₄, Int.ceil_eq_iff]
  norm_num

theorem fl_150_sub_50 : fl (150 - 50) = 100 :=
  fl_pos 6 7036874417766400 (by norm_num)

theorem fl_90_sub_40 : fl (90 - 40) = 50 :=
  fl_pos 5 7036874417766400 (by norm_num)

theorem fl_half_mul_two : fl (1 / 2 * 2) = 1 :=
  fl_pos 0 4503599627370496 (by norm_num)

theorem fl_one_sub_one : fl (1 - 1) = 0 :=
  fl_of_eq_zero (by norm_num)

theorem fl_zero_mul_zero : fl (0 * 0) = 0 :=
  fl_of_eq_zero (by norm_num)

theorem fl_zero_add_zero : fl (0 + 0) = 0 :=
  fl_of_eq_zero (by norm_num)

theorem fl_100_add_zero : fl (100 + 0) = 100 :=
  fl_pos 6 7036874417766400 (by norm_num)

theorem fl_50_add_zero : fl (50 + 0) = 50 :=
  fl_pos 5 7036874417766400 (by norm_num)

theorem createPaint_idle (rect : Rect) : (createPaint rect).Idle := ⟨rfl, rfl, rfl⟩

theorem pageWithWidth_idle (rect : Rect) (w : ℚ) : (pageWithWidth rect w).Idle :=
  ⟨rfl, rfl, rfl⟩

theorem relativePos_example : relativePos ⟨150, 90, 1⟩ ⟨50, 40⟩ = ⟨100, 50⟩ := by
  simp only [relativePos, fl_150_sub_50, fl_90_sub_40]
  have h1 : ⌊(100 : ℚ)⌋ = 100 := by exact_mod_cast Int.floor_intCast (100 : ℤ)
  have h2 : ⌊(50 : ℚ)⌋ = 50 := by exact_mod_cast Int.floor_intCast (50 : ℤ)
  rw [h1, h2]

theorem candidates_half_half (rest : List ℚ) :
    candidates (1 / 2 :: 1 / 2 :: rest) = (0, 0) :: candidates rest := by
  simp only [candidates, fl_half_mul_two, fl_one_sub_one]

theorem passesTest_zero : passesTest (0, 0) = true := by
  simp only [passesTest, fl_zero_mul_zero, fl_zero_add_zero]
  decide

theorem accepted_half_half : accepted [1 / 2, 1 / 2] = [(0, 0)] := by
  rw [accepted, candidates_half_half, List.filter_cons_of_pos passesTest_zero]
  rfl

theorem accepted_replicate_half (k : ℕ) :
    accepted (List.replicate (2 * k) (1 / 2)) = List.replicate k (0, 0) := by
  induction k with
  | zero => rfl
  | succ k ih =>
      have h2 : 2 * (k + 1) = (2 * k + 1) + 1 := by ring
      rw [h2, List.replicate_succ, List.replicate_succ, List.replicate_succ]
      rw [accepted] at ih ⊢
      rw [candidates_half_half, List.filter_cons_of_pos passesTest_zero, ih]

theorem dot_zero (radius : ℚ) : dot radius ⟨100, 50⟩ (0, 0) = .fillRect 100 50 1 1 := by
  have hs : scaled radius (0, 0) = ⟨0, 0⟩ := by
    simp only [scaled, zero_mul, fl_zero]
  simp only [dot, hs]
  have h1 : fl (((100 : ℤ) : ℚ) + 0) = 100 := by
    rw [show (((100 : ℤ) : ℚ) + 0) = 100 + 0 by norm_num]; exact fl_100_add_zero
  have h2 : fl (((50 : ℤ) : ℚ) + 0) = 50 := by
    rw [show (((50 : ℤ) : ℚ) + 0) = 50 + 0 by norm_num]; exact fl_50_add_zero
  rw [h1, h2]

theorem length_tickDots {f : SprayTick} {draws : List ℚ} (h : Finishes f draws) (p : Point) :
    (tickDots f p draws).length = f.dotsPerTick.toNat := by
  simp [tickDots, h.2]

theorem mem_tickDots {f : SprayTick} {p : Point} {draws : List ℚ} {d : DrawCall}
    (h : d ∈ tickDots f p draws) : ∃ x y : ℚ, d = .fillRect x y 1 1 := by
  simp only [tickDots, List.mem_map] at h
  obtain ⟨c, _, rfl⟩ := h
  exact ⟨_, _, rfl⟩

theorem step_tick_ok {f : SprayTick} {t id : ℕ} {s : State} (h : Spraying f t id s)
    {draws : List ℚ} (hd : Finishes f draws) :
    step s (.tick t draws) = .ok (s.drawAll (tickDots f (s.readCell f.cur) draws)) := by
  have hd' : f.dotsPerTick ≤ 2 ^ 53 ∧ f.dotsPerTick.toNat ≤ (accepted draws).length := hd
  rw [step_tick_spraying h, if_pos hd']; rfl

/-- Ticks of a Spray gesture with no input in between plot their dots one after another
around the same anchor. -/
theorem run_ticks_spraying {f : SprayTick} {t id : ℕ} (ticks : List (List ℚ)) {s : State}
    (h : Spraying f t id s) (hd : ∀ draws ∈ ticks, Finishes f draws) :
    run s (ticks.map (.tick t)) =
      .ok (s.drawAll (ticks.flatMap (tickDots f (s.readCell f.cur)))) := by
  induction ticks generalizing s with
  | nil => simp [run, State.drawAll_nil]
  | cons d ds ih =>
      simp only [List.map_cons, run, step_tick_ok h (hd d (List.mem_cons_self _ _))]
      rw [ih (spraying_drawAll h _) (fun x hx => hd x (List.mem_cons_of_mem _ hx))]
      simp [State.drawAll, State.readCell]

/-- A Spray gesture without any move: every tick plots its dots around the press position,
and the release adds nothing. -/
theorem run_spray_ticks_release (e0 : MouseEvent) (s : State) (ticks : List (List ℚ))
    (up : MouseEvent) (hs : s.Idle) (hd : ∀ draws ∈ ticks, Finishes (sprayTickOf s) draws) :
    ∃ s', run (tools.Spray e0 s) (ticks.map (.tick (s.nextId + 1)) ++ [.mouseup up]) = .ok s' ∧
      s'.cx.drawn = s.cx.drawn ++
        ticks.flatMap (tickDots (sprayTickOf s) (relativePos e0 s.rect)) := by
  have h0 := spray_spraying e0 s hs
  have hrun := run_ticks_spraying ticks h0 hd
  have hcell : (tools.Spray e0 s).readCell (sprayTickOf s).cur = relativePos e0 s.rect :=
    spray_readCell e0 s hs
  rw [hcell] at hrun
  refine ⟨dispatch .mouseup up ((tools.Spray e0 s).drawAll
    (ticks.flatMap (tickDots (sprayTickOf s) (relativePos e0 s.rect)))), ?_, ?_⟩
  · rw [run_append hrun]; simp only [run, step]
  rw [(mouseup_spraying (spraying_drawAll h0 _) up).2]
  simp [State.drawAll, spray_cx e0 s hs]

theorem finishes_of_dots {s : State} {n : ℕ} {k : ℕ} (hn : dotsFor s.cx.lineWidth = n)
    (h53 : (n : ℤ) ≤ 2 ^ 53) (hk : n ≤ k) :
    Finishes (sprayTickOf s) (List.replicate (2 * k) (1 / 2)) := by
  have hf : (sprayTickOf s).dotsPerTick = n := hn
  refine ⟨by rw [hf]; exact h53, ?_⟩
  rw [hf, accepted_replicate_half, List.length_replicate]
  simpa using hk

theorem createPaint_finishes (rect : Rect) :
    Finishes (sprayTickOf (createPaint rect)) [1 / 2, 1 / 2] := by
  have h := finishes_of_dots (s := createPaint rect) (n := 1) (k := 1) dotsFor_four
    (by norm_num) le_rfl
  simpa [List.replicate] using h

theorem tickDots_half (s : State) (n : ℕ) (k : ℕ) (hn : dotsFor s.cx.lineWidth = n)
    (hk : n ≤ k) :
    tickDots (sprayTickOf s) ⟨100, 50⟩ (List.replicate (2 * k) (1 / 2)) =
      List.replicate n (.fillRect 100 50 1 1) := by
  have hf : (sprayTickOf s).dotsPerTick = n := hn
  rw [tickDots, hf, accepted_replicate_half]
  simp only [Int.toNat_ofNat, List.take_replicate, List.map_replicate, dot_zero,
    min_eq_left hk]

/-- C5 fails: a Spray gesture with one tick and no move plots a dot at the press position. -/
theorem spray_plots_without_move :
    ∃ s', run (tools.Spray ⟨150, 90, 1⟩ (createPaint ⟨50, 40⟩))
        [.tick 1 [1 / 2, 1 / 2], .mouseup ⟨150, 90, 1⟩] = .ok s' ∧
      s'.cx.drawn = [.strokeRect 0 0 500 300, .fillRect 100 50 1 1] ∧
      s'.cx.drawn ≠ (createPaint ⟨50, 40⟩).cx.drawn := by
  obtain ⟨s', hrun, hdr⟩ := run_spray_ticks_release ⟨150, 90, 1⟩ (createPaint ⟨50, 40⟩)
    [[1 / 2, 1 / 2]] ⟨150, 90, 1⟩ (createPaint_idle _)
    (fun d hd => by rw [List.mem_singleton.1 hd]; exact createPaint_finishes _)
  have hdots : tickDots (sprayTickOf (createPaint ⟨50, 40⟩))
      (relativePos ⟨150, 90, 1⟩ (createPaint ⟨50, 40⟩).rect) [1 / 2, 1 / 2] =
      [.fillRect 100 50 1 1] := by
    have h1 : (createPaint ⟨50, 40⟩).rect = ⟨50, 40⟩ := rfl
    have h2 := tickDots_half (createPaint ⟨50, 40⟩) 1 1 dotsFor_four le_rfl
    rw [h1, relativePos_example]
    simpa [List.replicate] using h2
  have hdrawn : s'.cx.drawn = [.strokeRect 0 0 500 300, .fillRect 100 50 1 1] := by
    rw [hdr, List.flatMap_cons, List.flatMap_nil, hdots]; rfl
  refine ⟨s', hrun, hdrawn, ?_⟩
  rw [hdrawn]
  simp [createPaint]

/-- C5, amended: a Spray gesture without any move leaves the surface unchanged when no tick
fires between the press and the release; every tick that fires in between plots its dots
around the press position, although no move event occurred. -/
theorem spray_gesture_without_move (e0 : MouseEvent) (s : State) (ticks : List (List ℚ))
    (up : MouseEvent) (hs : s.Idle)
    (hd : ∀ draws ∈ ticks, Finishes (sprayTickOf s) draws) :
    ∃ s',
      run (tools.Spray e0 s) (ticks.map (.tick (s.nextId + 1)) ++ [.mouseup up]) = .ok s' ∧
      s'.cx.drawn = s.cx.drawn ++
        ticks.flatMap (tickDots (sprayTickOf s) (relativePos e0 s.rect)) ∧
      (ticks = [] → s'.cx.drawn = s.cx.drawn) := by
  obtain ⟨s', hrun, hdr⟩ := run_spray_ticks_release e0 s ticks up hs hd
  refine ⟨s', hrun, hdr, ?_⟩
  intro ht
  rw [hdr, ht]; simp

theorem spray_gesture_without_move_witness :
    ((createPaint ⟨50, 40⟩).Idle ∧
      ∀ draws ∈ [[(1 : ℚ) / 2, 1 / 2]], Finishes (sprayTickOf (createPaint ⟨50, 40⟩)) draws) ∧
    ∃ s',
      run (tools.Spray ⟨150, 90, 1⟩ (createPaint ⟨50, 40⟩))
        ([[(1 : ℚ) / 2, 1 / 2]].map (.tick ((createPaint ⟨50, 40⟩).nextId + 1)) ++
          [.mouseup ⟨150, 90, 1⟩]) = .ok s' ∧
      s'.cx.drawn = (createPaint ⟨50, 40⟩).cx.drawn ++
        [[(1 : ℚ) / 2, 1 / 2]].flatMap (tickDots (sprayTickOf (createPaint ⟨50, 40⟩))
          (relativePos ⟨150, 90, 1⟩ (createPaint ⟨50, 40⟩).rect)) ∧
      ([[(1 : ℚ) / 2, 1 / 2]] = [] → s'.cx.drawn = (createPaint ⟨50, 40⟩).cx.drawn) :=
  ⟨⟨createPaint_idle _,
      fun d hd => by rw [List.mem_singleton.1 hd]; exact createPaint_finishes _⟩,
    spray_gesture_without_move ⟨150, 90, 1⟩ (createPaint ⟨50, 40⟩) [[1 / 2, 1 / 2]]
      ⟨150, 90, 1⟩ (createPaint_idle _)
      (fun d hd => by rw [List.mem_singleton.1 hd]; exact createPaint_finishes _)⟩

theorem ceil_real_pi (w : ℚ) (k : ℤ) (h₁ : ((k : ℝ) - 1) * 30 < 3.1415 * ((w : ℝ) / 2) ^ 2)
    (h₂ : 3.1416 * ((w : ℝ) / 2) ^ 2 ≤ (k : ℝ) * 30) :
    ⌈Real.pi * ((w : ℝ) / 2) ^ 2 / 30⌉ = k := by
  rw [Int.ceil_eq_iff]
  have hlo := Real.pi_gt_d4
  have hhi := Real.pi_lt_d4
  have hsq : 0 ≤ ((w : ℝ) / 2) ^ 2 := sq_nonneg _
  constructor
  · rw [lt_div_iff₀ (by norm_num)]
    calc ((k : ℝ) - 1) * 30 < 3.1415 * ((w : ℝ) / 2) ^ 2 := h₁
      _ ≤ Real.pi * ((w : ℝ) / 2) ^ 2 := mul_le_mul_of_nonneg_right hlo.le hsq
  · rw [div_le_iff₀ (by norm_num)]
    calc Real.pi * ((w : ℝ) / 2) ^ 2 ≤ 3.1416 * ((w : ℝ) / 2) ^ 2 :=
          mul_le_mul_of_nonneg_right hhi.le hsq
      _ ≤ (k : ℝ) * 30 := h₂

/-- For the stroke widths the page sets (4 at start, then the brush sizes) the number of
dots the code computes in doubles is the ceiling taken with the real number `π`. -/
theorem dots_real_pi : ∀ w ∈ (4 : ℚ) :: sizes,
    dotsFor w = ⌈Real.pi * ((w : ℝ) / 2) ^ 2 / 30⌉ := by
  intro w hw
  simp only [sizes, List.mem_cons, List.mem_singleton, List.not_mem_nil, or_false] at hw
  rcases hw with rfl | rfl | rfl | rfl | rfl | rfl | rfl | rfl | rfl | rfl | rfl | rfl
  · rw [dotsFor_four, ceil_real_pi 4 1 (by norm_num) (by norm_num)]
  · rw [dotsFor_one, ceil_real_pi 1 1 (by norm_num) (by norm_num)]
  · rw [dotsFor_two, ceil_real_pi 2 1 (by norm_num) (by norm_num)]
  · rw [dotsFor_three, ceil_real_pi 3 1 (by norm_num) (by norm_num)]
  · rw [dotsFor_five, ceil_real_pi 5 1 (by norm_num) (by norm_num)]
  · rw [dotsFor_eight, ceil_real_pi 8 2 (by norm_num) (by norm_num)]
  · rw [dotsFor_twelve, ceil_real_pi 12 4 (by norm_num) (by norm_num)]
  · rw [dotsFor_twentyfive, ceil_real_pi 25 17 (by norm_num) (by norm_num)]
  · rw [dotsFor_thirtyfive, ceil_real_pi 35 33 (by norm_num) (by norm_num)]
  · rw [dotsFor_fifty, ceil_real_pi 50 66 (by norm_num) (by norm_num)]
  · rw [dotsFor_seventyfive, ceil_real_pi 75 148 (by norm_num) (by norm_num)]
  · rw [dotsFor_hundred, ceil_real_pi 100 262 (by norm_num) (by norm_num)]

/-- C6 fails: at stroke width 18.5411616971131 the product `radius * radius * Math.PI`
rounds to 270, so the code computes 9 dots per tick and a tick plots 9 dots, while
`ceil(pi * r^2 / 30)` is 10, with the real number `π` and with the value of `Math.PI`. -/
theorem spray_dots_rounded_down :
    ∃ s', run (tools.Spray ⟨150, 90, 1⟩ (pageWithWidth ⟨50, 40⟩ (5218873056883417 / 281474976710656)))
        [.tick 1 (List.replicate (2 * 10) (1 / 2))] = .ok s' ∧
      s'.cx.drawn = .strokeRect 0 0 500 300 :: List.replicate 9 (.fillRect 100 50 1 1) ∧
      ⌈Real.pi * ((((5218873056883417 / 281474976710656) : ℚ) : ℝ) / 2) ^ 2 / 30⌉ = 10 ∧
      ⌈Math.PI * (((5218873056883417 / 281474976710656) : ℚ) / 2) ^ 2 / 30⌉ = 10 := by
  have hidle := pageWithWidth_idle ⟨50, 40⟩ (5218873056883417 / 281474976710656)
  have hn : dotsFor (pageWithWidth ⟨50, 40⟩ (5218873056883417 / 281474976710656)).cx.lineWidth = ((9 : ℕ) : ℤ) :=
    dotsFor_rounded_down
  have h0 := spray_spraying ⟨150, 90, 1⟩ _ hidle
  have hfin := finishes_of_dots (k := 10) hn (by norm_num) (by norm_num)
  have hstep : step (tools.Spray ⟨150, 90, 1⟩ (pageWithWidth ⟨50, 40⟩ (5218873056883417 / 281474976710656)))
      (.tick 1 (List.replicate (2 * 10) (1 / 2))) =
      .ok ((tools.Spray ⟨150, 90, 1⟩ (pageWithWidth ⟨50, 40⟩ (5218873056883417 / 281474976710656))).drawAll
        (tickDots (sprayTickOf (pageWithWidth ⟨50, 40⟩ (5218873056883417 / 281474976710656)))
          ((tools.Spray ⟨150, 90, 1⟩ (pageWithWidth ⟨50, 40⟩ (5218873056883417 / 281474976710656))).readCell
            (sprayTickOf (pageWithWidth ⟨50, 40⟩ (5218873056883417 / 281474976710656))).cur)
          (List.replicate (2 * 10) (1 / 2)))) :=
    step_tick_ok h0 hfin
  have hcell : (tools.Spray ⟨150, 90, 1⟩ (pageWithWidth ⟨50, 40⟩ (5218873056883417 / 281474976710656))).readCell
      (sprayTickOf (pageWithWidth ⟨50, 40⟩ (5218873056883417 / 281474976710656))).cur = ⟨100, 50⟩ := by
    have h := spray_readCell ⟨150, 90, 1⟩ _ hidle
    have hrect : (pageWithWidth ⟨50, 40⟩ (5218873056883417 / 281474976710656)).rect = ⟨50, 40⟩ := rfl
    rw [hrect, relativePos_example] at h
    exact h
  rw [hcell, tickDots_half _ 9 10 hn (by norm_num)] at hstep
  refine ⟨(tools.Spray ⟨150, 90, 1⟩ (pageWithWidth ⟨50, 40⟩ (5218873056883417 / 281474976710656))).drawAll
    (List.replicate 9 (.fillRect 100 50 1 1)), by rw [run, hstep]; rfl, ?_, ?_, ?_⟩
  · have hcx := spray_cx ⟨150, 90, 1⟩ _ hidle
    show (tools.Spray ⟨150, 90, 1⟩ (pageWithWidth ⟨50, 40⟩ (5218873056883417 / 281474976710656))).cx.drawn ++
      List.replicate 9 (.fillRect 100 50 1 1) = _
    rw [hcx]
    rfl
  · rw [Int.ceil_eq_iff]
    have hlo := Real.pi_gt_d20
    have hhi := Real.pi_lt_d2
    constructor
    · rw [lt_div_iff₀ (by norm_num)]
      have hsq : (0 : ℝ) ≤ ((((5218873056883417 / 281474976710656) : ℚ) : ℝ) / 2) ^ 2 := sq_nonneg _
      calc (((10 : ℤ) : ℝ) - 1) * 30
          < 3.14159265358979323846 * ((((5218873056883417 / 281474976710656) : ℚ) : ℝ) / 2) ^ 2 := by norm_num
        _ ≤ Real.pi * ((((5218873056883417 / 281474976710656) : ℚ) : ℝ) / 2) ^ 2 := mul_le_mul_of_nonneg_right hlo.le hsq
    · rw [div_le_iff₀ (by norm_num)]
      have hsq : (0 : ℝ) ≤ ((((5218873056883417 / 281474976710656) : ℚ) : ℝ) / 2) ^ 2 := sq_nonneg _
      calc Real.pi * ((((5218873056883417 / 281474976710656) : ℚ) : ℝ) / 2) ^ 2
          ≤ 3.15 * ((((5218873056883417 / 281474976710656) : ℚ) : ℝ) / 2) ^ 2 := mul_le_mul_of_nonneg_right hhi.le hsq
        _ ≤ ((10 : ℤ) : ℝ) * 30 := by norm_num
  · rw [Int.ceil_eq_iff]
    norm_num [Math.PI]

/-- C6, amended: every tick of a Spray gesture started at stroke width `w` that ends plots
exactly `Math.ceil(radius * radius * Math.PI / 30)` dots, `radius = w / 2`, each operation
rounded to the nearest double. For the stroke widths the page sets (4 and the brush sizes)
this number is `ceil(π * (w/2)^2 / 30)` with the real number `π`; it is 2 for width 8
(radius 4) and 17 for width 25 (radius 12.5). -/
theorem spray_dots_per_tick (e0 : MouseEvent) (s : State) (pre : List Input)
    (draws : List ℚ) (s₁ : State) (hs : s.Idle)
    (hpre : ∀ i ∈ pre, ¬ i.isPress ∧ ¬ i.isRelease)
    (hrun : run (tools.Spray e0 s) pre = .ok s₁)
    (hd : Finishes (sprayTickOf s) draws) :
    (∃ s₂ dots, run s₁ [.tick (s.nextId + 1) draws] = .ok s₂ ∧
      s₂.cx.drawn = s₁.cx.drawn ++ dots ∧
      (∀ d ∈ dots, ∃ x y : ℚ, d = .fillRect x y 1 1) ∧
      (dots.length : ℤ) =
        ⌈fl (fl (fl (fl (s.cx.lineWidth / 2) * fl (s.cx.lineWidth / 2)) * Math.PI) / 30)⌉) ∧
    (∀ w ∈ (4 : ℚ) :: sizes,
      ⌈fl (fl (fl (fl (w / 2) * fl (w / 2)) * Math.PI) / 30)⌉ =
        ⌈Real.pi * ((w : ℝ) / 2) ^ 2 / 30⌉) ∧
    ⌈fl (fl (fl (fl ((8 : ℚ) / 2) * fl ((8 : ℚ) / 2)) * Math.PI) / 30)⌉ = 2 ∧
    ⌈fl (fl (fl (fl ((25 : ℚ) / 2) * fl ((25 : ℚ) / 2)) * Math.PI) / 30)⌉ = 17 := by
  refine ⟨?_, dots_real_pi, dotsFor_eight, dotsFor_twentyfive⟩
  have h₁ := run_spraying_held pre (spray_spraying e0 s hs) hpre hrun
  refine ⟨s₁.drawAll (tickDots (sprayTickOf s) (s₁.readCell (sprayTickOf s).cur) draws),
    tickDots (sprayTickOf s) (s₁.readCell (sprayTickOf s).cur) draws,
    by simp only [run, step_tick_ok h₁ hd], rfl, fun d hmem => mem_tickDots hmem, ?_⟩
  rw [length_tickDots hd]
  exact Int.toNat_of_nonneg (dotsFor_nonneg s.cx.lineWidth)

theorem spray_dots_per_tick_witness :
    ((createPaint ⟨50, 40⟩).Idle ∧
      (∀ i ∈ [Input.mousemove ⟨160, 95, 1⟩], ¬ i.isPress ∧ ¬ i.isRelease) ∧
      run (tools.Spray ⟨150, 90, 1⟩ (createPaint ⟨50, 40⟩)) [.mousemove ⟨160, 95, 1⟩] =
        .ok (dispatch .mousemove ⟨160, 95, 1⟩
          (tools.Spray ⟨150, 90, 1⟩ (createPaint ⟨50, 40⟩))) ∧
      Finishes (sprayTickOf (createPaint ⟨50, 40⟩)) [1 / 2, 1 / 2]) ∧
    ((∃ s₂ dots,
      run (dispatch .mousemove ⟨160, 95, 1⟩ (tools.Spray ⟨150, 90, 1⟩ (createPaint ⟨50, 40⟩)))
        [.tick ((createPaint ⟨50, 40⟩).nextId + 1) [1 / 2, 1 / 2]] = .ok s₂ ∧
      s₂.cx.drawn = (dispatch .mousemove ⟨160, 95, 1⟩
        (tools.Spray ⟨150, 90, 1⟩ (createPaint ⟨50, 40⟩))).cx.drawn ++ dots ∧
      (∀ d ∈ dots, ∃ x y : ℚ, d = .fillRect x y 1 1) ∧
      (dots.length : ℤ) =
        ⌈fl (fl (fl (fl ((createPaint ⟨50, 40⟩).cx.lineWidth / 2) *
          fl ((createPaint ⟨50, 40⟩).cx.lineWidth / 2)) * Math.PI) / 30)⌉) ∧
    (∀ w ∈ (4 : ℚ) :: sizes,
      ⌈fl (fl (fl (fl (w / 2) * fl (w / 2)) * Math.PI) / 30)⌉ =
        ⌈Real.pi * ((w : ℝ) / 2) ^ 2 / 30⌉) ∧
    ⌈fl (fl (fl (fl ((8 : ℚ) / 2) * fl ((8 : ℚ) / 2)) * Math.PI) / 30)⌉ = 2 ∧
    ⌈fl (fl (fl (fl ((25 : ℚ) / 2) * fl ((25 : ℚ) / 2)) * Math.PI) / 30)⌉ = 17) :=
  ⟨⟨createPaint_idle _, by simp [Input.isPress, Input.isRelease], rfl,
      createPaint_finishes _⟩,
    spray_dots_per_tick ⟨150, 90, 1⟩ (createPaint ⟨50, 40⟩) [.mousemove ⟨160, 95, 1⟩]
      [1 / 2, 1 / 2] _ (createPaint_idle _) (by simp [Input.isPress, Input.isRelease]) rfl
      (createPaint_finishes _)⟩

/-- The interval of a Spray gesture in progress is unaffected by the brush size control. -/
theorem step_brushSize_tick_spraying {f : SprayTick} {t id : ℕ} {s : State}
    (h : Spraying f t id s) (w : ℚ) {draws : List ℚ} (hd : Finishes f draws) :
    run s [.brushSize w, .tick t draws] =
      .ok ((controls.brushSize w s).drawAll (tickDots f (s.readCell f.cur) draws)) := by
  have h' : Spraying f t id (controls.brushSize w s) := h
  have hb : step s (.brushSize w) = .ok (controls.brushSize w s) := rfl
  simp only [run, hb, step_tick_ok h' hd]
  rfl

/-- C10 fails: the Spray gesture starts at width 8 and its first tick plots 2 dots; the
width is then set to 25 and the next tick, given draws for 17 dots, again plots 2 dots,
not `ceil(pi * 12.5^2 / 30) = 17`. -/
theorem spray_ignores_width_change :
    ∃ s₁ s₂, run (tools.Spray ⟨150, 90, 1⟩ (controls.brushSize 8 (createPaint ⟨50, 40⟩)))
        [.tick 1 (List.replicate (2 * 2) (1 / 2))] = .ok s₁ ∧
      s₁.cx.drawn = [.strokeRect 0 0 500 300, .fillRect 100 50 1 1, .fillRect 100 50 1 1] ∧
      run s₁ [.brushSize 25, .tick 1 (List.replicate (2 * 17) (1 / 2))] = .ok s₂ ∧
      s₂.cx.lineWidth = 25 ∧
      s₂.cx.drawn = s₁.cx.drawn ++ [.fillRect 100 50 1 1, .fillRect 100 50 1 1] ∧
      ⌈Real.pi * (((25 : ℚ) : ℝ) / 2) ^ 2 / 30⌉ = 17 := by
  have hidle : (controls.brushSize 8 (createPaint ⟨50, 40⟩)).Idle := ⟨rfl, rfl, rfl⟩
  have hn : dotsFor (controls.brushSize 8 (createPaint ⟨50, 40⟩)).cx.lineWidth =
      ((2 : ℕ) : ℤ) := dotsFor_eight
  have h0 := spray_spraying ⟨150, 90, 1⟩ _ hidle
  have hcell : (tools.Spray ⟨150, 90, 1⟩ (controls.brushSize 8 (createPaint ⟨50, 40⟩))).readCell
      (sprayTickOf (controls.brushSize 8 (createPaint ⟨50, 40⟩))).cur = ⟨100, 50⟩ := by
    have h := spray_readCell ⟨150, 90, 1⟩ _ hidle
    have hrect : (controls.brushSize 8 (createPaint ⟨50, 40⟩)).rect = ⟨50, 40⟩ := rfl
    rw [hrect, relativePos_example] at h
    exact h
  have hstep : step (tools.Spray ⟨150, 90, 1⟩ (controls.brushSize 8 (createPaint ⟨50, 40⟩)))
      (.tick 1 (List.replicate (2 * 2) (1 / 2))) =
      .ok ((tools.Spray ⟨150, 90, 1⟩ (controls.brushSize 8 (createPaint ⟨50, 40⟩))).drawAll
        (tickDots (sprayTickOf (controls.brushSize 8 (createPaint ⟨50, 40⟩)))
          ((tools.Spray ⟨150, 90, 1⟩
            (controls.brushSize 8 (createPaint ⟨50, 40⟩))).readCell
            (sprayTickOf (controls.brushSize 8 (createPaint ⟨50, 40⟩))).cur)
          (List.replicate (2 * 2) (1 / 2)))) :=
    step_tick_ok h0 (finishes_of_dots (k := 2) hn (by norm_num) (by norm_num))
  rw [hcell, tickDots_half _ 2 2 hn (by norm_num)] at hstep
  have h1 := spraying_drawAll h0 (List.replicate 2 (.fillRect 100 50 1 1))
  have hrun₂ : run ((tools.Spray ⟨150, 90, 1⟩
      (controls.brushSize 8 (createPaint ⟨50, 40⟩))).drawAll
        (List.replicate 2 (.fillRect 100 50 1 1)))
      [.brushSize 25, .tick 1 (List.replicate (2 * 17) (1 / 2))] = _ :=
    step_brushSize_tick_spraying h1 25
      (finishes_of_dots (k := 17) hn (by norm_num) (by norm_num))
  have hcell' : ((tools.Spray ⟨150, 90, 1⟩
      (controls.brushSize 8 (createPaint ⟨50, 40⟩))).drawAll
        (List.replicate 2 (.fillRect 100 50 1 1))).readCell
      (sprayTickOf (controls.brushSize 8 (createPaint ⟨50, 40⟩))).cur = ⟨100, 50⟩ := hcell
  rw [hcell', tickDots_half _ 2 17 hn (by norm_num)] at hrun₂
  refine ⟨_, _, by rw [run, hstep]; rfl, ?_, hrun₂, rfl, rfl, ?_⟩
  · have hcx := spray_cx ⟨150, 90, 1⟩ _ hidle
    show (tools.Spray ⟨150, 90, 1⟩ (controls.brushSize 8 (createPaint ⟨50, 40⟩))).cx.drawn ++
      List.replicate 2 (.fillRect 100 50 1 1) = _
    rw [hcx]
    rfl
  · exact ceil_real_pi 25 17 (by norm_num) (by norm_num)

/-- C10, amended: when a toolbar control changes the stroke width during a Spray gesture,
the change has no effect on the gesture's ticks: the next tick plots exactly the dots it
plots without the change, their number and radius being those computed from the width at
the start of the gesture; what earlier ticks drew is unaffected. -/
theorem spray_tick_keeps_start_width (e0 : MouseEvent) (s : State) (pre : List Input)
    (w' : ℚ) (draws : List ℚ) (s₁ : State) (hs : s.Idle)
    (hpre : ∀ i ∈ pre, ¬ i.isPress ∧ ¬ i.isRelease)
    (hrun : run (tools.Spray e0 s) pre = .ok s₁)
    (hd : Finishes (sprayTickOf s) draws) :
    ∃ s₂ s₂', run s₁ [.brushSize w', .tick (s.nextId + 1) draws] = .ok s₂ ∧
      run s₁ [.tick (s.nextId + 1) draws] = .ok s₂' ∧
      s₂.cx.lineWidth = w' ∧
      s₂.cx.drawn = s₂'.cx.drawn ∧
      s₂.cx.drawn = s₁.cx.drawn ++
        tickDots (sprayTickOf s) (s₁.readCell s.nextId) draws := by
  have h₁ := run_spraying_held pre (spray_spraying e0 s hs) hpre hrun
  exact ⟨_, s₁.drawAll (tickDots (sprayTickOf s) (s₁.readCell (sprayTickOf s).cur) draws),
    step_brushSize_tick_spraying h₁ w' hd, by simp only [run, step_tick_ok h₁ hd],
    rfl, rfl, rfl⟩

theorem spray_tick_keeps_start_width_witness :
    ((createPaint ⟨50, 40⟩).Idle ∧
      (∀ i ∈ [Input.mousemove ⟨160, 95, 1⟩], ¬ i.isPress ∧ ¬ i.isRelease) ∧
      run (tools.Spray ⟨150, 90, 1⟩ (createPaint ⟨50, 40⟩)) [.mousemove ⟨160, 95, 1⟩] =
        .ok (dispatch .mousemove ⟨160, 95, 1⟩
          (tools.Spray ⟨150, 90, 1⟩ (createPaint ⟨50, 40⟩))) ∧
      Finishes (sprayTickOf (createPaint ⟨50, 40⟩)) [1 / 2, 1 / 2]) ∧
    ∃ s₂ s₂',
      run (dispatch .mousemove ⟨160, 95, 1⟩ (tools.Spray ⟨150, 90, 1⟩ (createPaint ⟨50, 40⟩)))
        [.brushSize 25, .tick ((createPaint ⟨50, 40⟩).nextId + 1) [1 / 2, 1 / 2]] = .ok s₂ ∧
      run (dispatch .mousemove ⟨160, 95, 1⟩ (tools.Spray ⟨150, 90, 1⟩ (createPaint ⟨50, 40⟩)))
        [.tick ((createPaint ⟨50, 40⟩).nextId + 1) [1 / 2, 1 / 2]] = .ok s₂' ∧
      s₂.cx.lineWidth = 25 ∧
      s₂.cx.drawn = s₂'.cx.drawn ∧
      s₂.cx.drawn = (dispatch .mousemove ⟨160, 95, 1⟩
        (tools.Spray ⟨150, 90, 1⟩ (createPaint ⟨50, 40⟩))).cx.drawn ++
        tickDots (sprayTickOf (createPaint ⟨50, 40⟩))
          ((dispatch .mousemove ⟨160, 95, 1⟩
            (tools.Spray ⟨150, 90, 1⟩ (createPaint ⟨50, 40⟩))).readCell
              (createPaint ⟨50, 40⟩).nextId) [1 / 2, 1 / 2] :=
  ⟨⟨createPaint_idle _, by simp [Input.isPress, Input.isRelease], rfl,
      createPaint_finishes _⟩,
    spray_tick_keeps_start_width ⟨150, 90, 1⟩ (createPaint ⟨50, 40⟩) [.mousemove ⟨160, 95, 1⟩]
      25 [1 / 2, 1 / 2] _ (createPaint_idle _) (by simp [Input.isPress, Input.isRelease]) rfl
      (createPaint_finishes _)⟩

/-- The state after one tick, one move and the release of a Spray gesture on a fresh
page. -/
theorem run_spray_example :
    run (tools.Spray ⟨150, 90, 1⟩ (createPaint ⟨50, 40⟩))
      ([.tick 1 [1 / 2, 1 / 2], .mousemove ⟨160, 95, 1⟩] ++ [.mouseup ⟨160, 95, 1⟩]) =
      .ok (dispatch .mouseup ⟨160, 95, 1⟩ (dispatch .mousemove ⟨160, 95, 1⟩
        ((tools.Spray ⟨150, 90, 1⟩ (createPaint ⟨50, 40⟩)).drawAll
          (tickDots (sprayTickOf (createPaint ⟨50, 40⟩))
            ((tools.Spray ⟨150, 90, 1⟩ (createPaint ⟨50, 40⟩)).readCell 0)
            [1 / 2, 1 / 2])))) := by
  have ht : step (tools.Spray ⟨150, 90, 1⟩ (createPaint ⟨50, 40⟩)) (.tick 1 [1 / 2, 1 / 2]) =
      .ok ((tools.Spray ⟨150, 90, 1⟩ (createPaint ⟨50, 40⟩)).drawAll
          (tickDots (sprayTickOf (createPaint ⟨50, 40⟩))
            ((tools.Spray ⟨150, 90, 1⟩ (createPaint ⟨50, 40⟩)).readCell 0) [1 / 2, 1 / 2])) :=
    step_tick_ok (spray_spraying ⟨150, 90, 1⟩ _ (createPaint_idle _))
      (createPaint_finishes ⟨50, 40⟩)
  simp only [List.cons_append, List.nil_append]
  rw [run, ht]
  rfl

theorem spray_timer_cancelled_witness :
    ((createPaint ⟨50, 40⟩).Idle ∧
      (∀ i ∈ [Input.tick 1 [1 / 2, 1 / 2], Input.mousemove ⟨160, 95, 1⟩], ¬ i.isPress) ∧
      run (tools.Spray ⟨150, 90, 1⟩ (createPaint ⟨50, 40⟩))
        ([.tick 1 [1 / 2, 1 / 2], .mousemove ⟨160, 95, 1⟩] ++ [.mouseup ⟨160, 95, 1⟩]) =
        .ok (dispatch .mouseup ⟨160, 95, 1⟩ (dispatch .mousemove ⟨160, 95, 1⟩
          ((tools.Spray ⟨150, 90, 1⟩ (createPaint ⟨50, 40⟩)).drawAll
            (tickDots (sprayTickOf (createPaint ⟨50, 40⟩))
              ((tools.Spray ⟨150, 90, 1⟩ (createPaint ⟨50, 40⟩)).readCell 0)
              [1 / 2, 1 / 2]))))) ∧
    ((dispatch .mouseup ⟨160, 95, 1⟩ (dispatch .mousemove ⟨160, 95, 1⟩
      ((tools.Spray ⟨150, 90, 1⟩ (createPaint ⟨50, 40⟩)).drawAll
        (tickDots (sprayTickOf (createPaint ⟨50, 40⟩))
          ((tools.Spray ⟨150, 90, 1⟩ (createPaint ⟨50, 40⟩)).readCell 0)
          [1 / 2, 1 / 2])))).timers = [] ∧
    ∀ post : List Input, (∀ i ∈ post, ¬ i.isPress) →
      ∃ s₃, run (dispatch .mouseup ⟨160, 95, 1⟩ (dispatch .mousemove ⟨160, 95, 1⟩
        ((tools.Spray ⟨150, 90, 1⟩ (createPaint ⟨50, 40⟩)).drawAll
          (tickDots (sprayTickOf (createPaint ⟨50, 40⟩))
            ((tools.Spray ⟨150, 90, 1⟩ (createPaint ⟨50, 40⟩)).readCell 0)
            [1 / 2, 1 / 2])))) post = .ok s₃ ∧
        s₃.cx.drawn = (dispatch .mouseup ⟨160, 95, 1⟩ (dispatch .mousemove ⟨160, 95, 1⟩
          ((tools.Spray ⟨150, 90, 1⟩ (createPaint ⟨50, 40⟩)).drawAll
            (tickDots (sprayTickOf (createPaint ⟨50, 40⟩))
              ((tools.Spray ⟨150, 90, 1⟩ (createPaint ⟨50, 40⟩)).readCell 0)
              [1 / 2, 1 / 2])))).cx.drawn) :=
  ⟨⟨createPaint_idle _, by simp [Input.isPress], run_spray_example⟩,
    spray_timer_cancelled ⟨150, 90, 1⟩ (createPaint ⟨50, 40⟩)
      [.tick 1 [1 / 2, 1 / 2], .mousemove ⟨160, 95, 1⟩] ⟨160, 95, 1⟩ _ (createPaint_idle _)
      (by simp [Input.isPress]) run_spray_example⟩

/-- C7 fails: with radius 3.5 and the draws 0.1, 0.2 the code accepts the first candidate
(the sum `x * x + y * y` rounds to 1) and returns an offset with `x^2 + y^2 > r^2`; with
radius 1 and the draws 0.502, 0.9999959999839999 it returns a candidate outside the unit
disk. -/
theorem randomPointInRadius_outside :
    randomPointInRadius (7 / 2) [(3602879701896397 / 36028797018963968), (3602879701896397 / 18014398509481984)] = some (⟨(-6305039478318695 / 2251799813685248), (-4728779608739021 / 2251799813685248)⟩, []) ∧
    ¬ (((-6305039478318695 / 2251799813685248) : ℚ) ^ 2 + (-4728779608739021 / 2251799813685248) ^ 2 ≤ (7 / 2) ^ 2) ∧
    randomPointInRadius 1 [(2260807012939989 / 4503599627370496), (9007163225799857 / 9007199254740992)] = some (⟨(9007199254741 / 2251799813685248), (4503563598429361 / 4503599627370496)⟩, []) ∧
    ¬ (((9007199254741 / 2251799813685248) : ℚ) ^ 2 + (4503563598429361 / 4503599627370496) ^ 2 ≤ 1) := by
  have ha : fl ((3602879701896397 / 36028797018963968) * 2) =
      (3602879701896397 / 18014398509481984) :=
    fl_pos (-3) 7205759403792794 (by norm_num)
  have hx : fl ((3602879701896397 / 18014398509481984) - 1) =
      (-3602879701896397 / 4503599627370496) :=
    fl_tie_neg (-1) (-7205759403792794) (by norm_num)
  have hb : fl ((3602879701896397 / 18014398509481984) * 2) =
      (3602879701896397 / 9007199254740992) :=
    fl_pos (-2) 7205759403792794 (by norm_num)
  have hy : fl ((3602879701896397 / 9007199254740992) - 1) =
      (-5404319552844595 / 9007199254740992) :=
    fl_neg (-1) (-5404319552844595) (by norm_num)
  have hxx : fl ((-3602879701896397 / 4503599627370496) * (-3602879701896397 / 4503599627370496)) =
      (1441151880758559 / 2251799813685248) :=
    fl_pos (-1) 5764607523034236 (by norm_num)
  have hyy : fl ((-5404319552844595 / 9007199254740992) * (-5404319552844595 / 9007199254740992)) =
      (3242591731706757 / 9007199254740992) :=
    fl_pos (-2) 6485183463413514 (by norm_num)
  have ht : fl ((1441151880758559 / 2251799813685248) + (3242591731706757 / 9007199254740992)) =
      1 :=
    fl_tie_pos 0 4503599627370496 (by norm_num)
  have hX : fl ((-3602879701896397 / 4503599627370496) * (7 / 2)) =
      (-6305039478318695 / 2251799813685248) :=
    fl_neg 1 (-6305039478318695) (by norm_num)
  have hY : fl ((-5404319552844595 / 9007199254740992) * (7 / 2)) =
      (-4728779608739021 / 2251799813685248) :=
    fl_neg 1 (-4728779608739021) (by norm_num)
  have ha' : fl ((2260807012939989 / 4503599627370496) * 2) =
      (2260807012939989 / 2251799813685248) :=
    fl_pos 0 4521614025879978 (by norm_num)
  have hx' : fl ((2260807012939989 / 2251799813685248) - 1) = (9007199254741 / 2251799813685248) :=
    fl_pos (-8) 4611686018427392 (by norm_num)
  have hb' : fl ((9007163225799857 / 9007199254740992) * 2) =
      (9007163225799857 / 4503599627370496) :=
    fl_pos 0 9007163225799857 (by norm_num)
  have hy' : fl ((9007163225799857 / 4503599627370496) - 1) =
      (4503563598429361 / 4503599627370496) :=
    fl_pos (-1) 9007127196858722 (by norm_num)
  have hxx' : fl ((9007199254741 / 2251799813685248) * (9007199254741 / 2251799813685248)) =
      (2361183241434827 / 147573952589676412928) :=
    fl_pos (-16) 4722366482869654 (by norm_num)
  have hyy' : fl ((4503563598429361 / 4503599627370496) * (4503563598429361 / 4503599627370496)) =
      (9007055139552917 / 9007199254740992) :=
    fl_pos (-1) 9007055139552917 (by norm_num)
  have ht' : fl ((2361183241434827 / 147573952589676412928) + (9007055139552917 / 9007199254740992)) =
      1 :=
    fl_pos 0 4503599627370496 (by norm_num)
  have hX' : fl ((9007199254741 / 2251799813685248) * 1) = (9007199254741 / 2251799813685248) :=
    fl_pos (-8) 4611686018427392 (by norm_num)
  have hY' : fl ((4503563598429361 / 4503599627370496) * 1) =
      (4503563598429361 / 4503599627370496) :=
    fl_pos (-1) 9007127196858722 (by norm_num)
  refine ⟨?_, by norm_num, ?_, by norm_num⟩
  · simp only [randomPointInRadius]
    rw [ha, hx, hb, hy, hxx, hyy, ht, if_pos le_rfl, hX, hY]
  · simp only [randomPointInRadius]
    rw [ha', hx', hb', hy', hxx', hyy', ht', if_pos le_rfl, hX', hY']

/-- C7, amended: when the stream of draws holds a candidate `(u * 2 - 1, v * 2 - 1)` that
passes the test `x * x + y * y <= 1` as the code evaluates it in doubles,
`randomPointInRadius(r)` returns the first such candidate in draw order, each coordinate
multiplied by `r` and rounded to a double; an offset it returns always comes from a
candidate that passes this test. -/
theorem randomPointInRadius_first_accepted (radius : ℚ) (draws : List ℚ)
    (h : ∃ c ∈ candidates draws, passesTest c = true) :
    (∃ c rest, (candidates draws).find? passesTest = some c ∧
      randomPointInRadius radius draws =
        some (⟨fl (c.1 * radius), fl (c.2 * radius)⟩, rest) ∧
      fl (fl (c.1 * c.1) + fl (c.2 * c.2)) ≤ 1) ∧
    ∀ o rest, randomPointInRadius radius draws = some (o, rest) →
      ∃ c ∈ candidates draws, fl (fl (c.1 * c.1) + fl (c.2 * c.2)) ≤ 1 ∧
        o = ⟨fl (c.1 * radius), fl (c.2 * radius)⟩ := by
  have heq := randomPointInRadius_eq radius draws
  constructor
  · obtain ⟨c₀, hmem, hc₀⟩ := h
    have hsome : ((candidates draws).find? passesTest).isSome := by
      rw [List.find?_isSome]
      exact ⟨c₀, hmem, hc₀⟩
    obtain ⟨c, hc⟩ := Option.isSome_iff_exists.1 hsome
    have hin : fl (fl (c.1 * c.1) + fl (c.2 * c.2)) ≤ 1 := by
      have := List.find?_some hc
      simpa [passesTest] using this
    rw [hc] at heq
    cases hr : randomPointInRadius radius draws with
    | none => rw [hr] at heq; simp at heq
    | some p =>
        obtain ⟨o, rest⟩ := p
        rw [hr] at heq
        simp only [Option.map_some', Option.some.injEq] at heq
        exact ⟨c, rest, hc, by rw [heq]; rfl, hin⟩
  · intro o rest hr
    rw [hr] at heq
    cases hf : (candidates draws).find? passesTest with
    | none => rw [hf] at heq; simp at heq
    | some c =>
        rw [hf] at heq
        simp only [Option.map_some', Option.some.injEq] at heq
        have hp := List.find?_some hf
        exact ⟨c, List.mem_of_find?_eq_some hf, by simpa [passesTest] using hp, by rw [heq]; rfl⟩

theorem randomPointInRadius_first_accepted_witness :
    (∃ c ∈ candidates [15 / 16, 15 / 16, 1 / 2, 1 / 2], passesTest c = true) ∧
    ((∃ c rest, (candidates [15 / 16, 15 / 16, 1 / 2, 1 / 2]).find? passesTest = some c ∧
      randomPointInRadius 4 [15 / 16, 15 / 16, 1 / 2, 1 / 2] =
        some (⟨fl (c.1 * 4), fl (c.2 * 4)⟩, rest) ∧
      fl (fl (c.1 * c.1) + fl (c.2 * c.2)) ≤ 1) ∧
    ∀ o rest, randomPointInRadius 4 [15 / 16, 15 / 16, 1 / 2, 1 / 2] = some (o, rest) →
      ∃ c ∈ candidates [15 / 16, 15 / 16, 1 / 2, 1 / 2],
        fl (fl (c.1 * c.1) + fl (c.2 * c.2)) ≤ 1 ∧ o = ⟨fl (c.1 * 4), fl (c.2 * 4)⟩) :=
  ⟨⟨(0, 0), by rw [candidates, candidates_half_half]; simp, passesTest_zero⟩,
    randomPointInRadius_first_accepted 4 [15 / 16, 15 / 16, 1 / 2, 1 / 2]
      ⟨(0, 0), by rw [candidates, candidates_half_half]; simp, passesTest_zero⟩⟩

theorem tool_call_commutes_log (t : Tool) (answer : Option String) (ev : MouseEvent) (s : State)
    (c : Call) : t.call answer ev (s.log c) = (t.call answer ev s).log c := by
  cases t
  · simp only [Tool.call, tools.Line, State.newCell, trackDrag, addEventListener,
      State.listeners, State.setListeners, State.log]
    split <;> split <;> rfl
  · simp only [Tool.call, tools.Erase, tools.Line, State.newCell, trackDrag, addEventListener,
      State.listeners, State.setListeners, State.log]
    split <;> split <;> rfl
  · simp only [Tool.call, tools.Text]
    cases answer with
    | none => rfl
    | some text =>
        simp only
        split <;> rfl
  · simp only [Tool.call, tools.Spray, State.newCell, setInterval, trackDrag, addEventListener,
      State.listeners, State.setListeners, State.log]
    split <;> split <;> rfl

theorem tool_call_keeps_calls (t : Tool) (answer : Option String) (ev : MouseEvent) (s : State) :
    (t.call answer ev s).calls = s.calls := by
  cases t
  · simp only [Tool.call, tools.Line, State.newCell, trackDrag, addEventListener,
      State.listeners, State.setListeners]
    split <;> split <;> rfl
  · simp only [Tool.call, tools.Erase, tools.Line, State.newCell, trackDrag, addEventListener,
      State.listeners, State.setListeners]
    split <;> split <;> rfl
  · simp only [Tool.call, tools.Text]
    cases answer with
    | none => rfl
    | some text =>
        simp only
        split <;> rfl
  · simp only [Tool.call, tools.Spray, State.newCell, setInterval, trackDrag, addEventListener,
      State.listeners, State.setListeners]
    split <;> split <;> rfl

/-- C9: a `mousedown` that is not a primary-button press changes nothing: no tool is called
and `preventDefault` is not called. A primary-button press with a selected name that is in
the registry calls that tool once with the event, then `preventDefault`. A primary-button
press with a name absent from the registry fails with a `TypeError`. -/
theorem dispatcher_cases (selected : String) (answer : Option String) (ev : MouseEvent)
    (s : State) :
    (ev.which ≠ 1 → controls.tool selected answer ev s = .ok s) ∧
    (ev.which = 1 → ∀ t, tools selected = some t →
      ∃ s', controls.tool selected answer ev s = .ok s' ∧
        s' = { t.call answer ev s with
                calls := s.calls ++ [.tool t ev, .preventDefault ev] } ∧
        s'.calls = s.calls ++ [.tool t ev, .preventDefault ev]) ∧
    (ev.which = 1 → tools selected = none →
      controls.tool selected answer ev s = .error .typeError) := by
  refine ⟨fun h => ?_, fun h t ht => ?_, fun h ht => ?_⟩
  · simp [controls.tool, h]
  · refine ⟨(t.call answer ev (s.log (.tool t ev))).log (.preventDefault ev),
      by simp only [controls.tool, h, ht, if_true], ?_, ?_⟩
    · rw [tool_call_commutes_log]
      simp [State.log, tool_call_keeps_calls]
    · rw [tool_call_commutes_log]
      simp [State.log, tool_call_keeps_calls]
  · simp [controls.tool, h, ht]

theorem dispatcher_cases_witness :
    (((⟨150, 90, 1⟩ : MouseEvent).which ≠ 1 →
      controls.tool "Line" none ⟨150, 90, 1⟩ (createPaint ⟨50, 40⟩) =
        .ok (createPaint ⟨50, 40⟩)) ∧
    ((⟨150, 90, 1⟩ : MouseEvent).which = 1 → ∀ t, tools "Line" = some t →
      ∃ s', controls.tool "Line" none ⟨150, 90, 1⟩ (createPaint ⟨50, 40⟩) = .ok s' ∧
        s' = { t.call none ⟨150, 90, 1⟩ (createPaint ⟨50, 40⟩) with
                calls := (createPaint ⟨50, 40⟩).calls ++
                  [.tool t ⟨150, 90, 1⟩, .preventDefault ⟨150, 90, 1⟩] } ∧
        s'.calls = (createPaint ⟨50, 40⟩).calls ++
          [.tool t ⟨150, 90, 1⟩, .preventDefault ⟨150, 90, 1⟩]) ∧
    ((⟨150, 90, 1⟩ : MouseEvent).which = 1 → tools "Line" = none →
      controls.tool "Line" none ⟨150, 90, 1⟩ (createPaint ⟨50, 40⟩) = .error .typeError)) ∧
    (⟨150, 90, 1⟩ : MouseEvent).which = 1 ∧ tools "Line" = some .Line ∧
    tools "Brush" = none :=
  ⟨dispatcher_cases "Line" none ⟨150, 90, 1⟩ (createPaint ⟨50, 40⟩), rfl, by decide, by decide⟩

/-- C8 at stroke width 8 with the answer `Hi`: the Text tool makes one `fillText` call with
the text at the press position, after assigning to `cx.font` the number 8 followed by
`" px sans - serif "`, which is not `8px sans-serif`: a blank separates the number from
`px`, and the family reads `sans - serif`. A cancelled prompt and an empty answer leave the
state as it is. -/
theorem text_tool_font_value :
    (tools.Text (some "Hi") ⟨150, 90, 1⟩ (controls.brushSize 8 (createPaint ⟨50, 40⟩))).cx.font =
      .numberThen 8 " px sans - serif " ∧
    (tools.Text (some "Hi") ⟨150, 90, 1⟩
      (controls.brushSize 8 (createPaint ⟨50, 40⟩))).cx.drawn =
      [.strokeRect 0 0 500 300, .fillText "Hi" 100 50] ∧
    FontValue.numberThen 8 " px sans - serif " ≠ FontValue.numberThen 8 "px sans-serif" ∧
    (∀ ev s, tools.Text none ev s = s) ∧ (∀ ev s, tools.Text (some "") ev s = s) := by
  have hne : ("Hi" : String) ≠ "" := by decide
  have hrect : (controls.brushSize 8 (createPaint ⟨50, 40⟩)).rect = ⟨50, 40⟩ := rfl
  have hw : (controls.brushSize 8 (createPaint ⟨50, 40⟩)).cx.lineWidth = 8 := rfl
  have hmax : max (7 : ℚ) 8 = 8 := by norm_num
  refine ⟨?_, ?_, by decide, fun _ _ => rfl, fun _ _ => by simp [tools.Text]⟩
  · simp only [tools.Text, if_pos hne, State.draw, hw, hmax]
  · simp only [tools.Text, if_pos hne, State.draw, hrect, relativePos_example]
    rfl

end Paint

